import Mathlib

/-!
Verification development for the invoice-extraction engine of this repository
(`tracker/extraction_utils.py` and `tracker/utils/pdf_text_extractor.py`).

The Python code is shallowly embedded: Python strings are Lean `String`s
(ASCII fragment), Python `dict`s are association lists with first-key lookup
and in-place update, `decimal.Decimal` is a sign/coefficient/scale triple,
exceptions are `Except`/`Option` values, and the behaviour of `re.search`
for a configured rule is the rule's `search` function (rules loaded from
the database are opaque patterns, so a rule is modelled by the denotation
of `re.search(pattern, text, re.IGNORECASE | re.MULTILINE)` followed by
`match.group(group)`).  Concrete rule denotations used in closed theorems
quote the regex they denote and are justified by a hand trace.
-/

/-! ## String helpers (Python `str` semantics on the ASCII fragment) -/

/-- Python `s.lower()` (ASCII). -/
def lowerStr (s : String) : String := String.mk (s.data.map Char.toLower)

/-- Python `s.upper()` (ASCII). -/
def upperStr (s : String) : String := String.mk (s.data.map Char.toUpper)

/-- Python `s.strip()`: remove leading and trailing whitespace. -/
def pyStrip (s : String) : String :=
  String.mk (((s.data.dropWhile Char.isWhitespace).reverse.dropWhile Char.isWhitespace).reverse)

/-- Remove every occurrence of the character `c` (Python `s.replace(c, '')`
for a one-character pattern). -/
def removeChar (c : Char) (s : String) : String :=
  String.mk (s.data.filter (fun d => d ≠ c))

/-- Python `s[:n]` (slicing by code points). -/
def strTake (s : String) (n : Nat) : String := String.mk (s.data.take n)

/-- Python `s[n:]` (slicing by code points). -/
def strDrop (s : String) (n : Nat) : String := String.mk (s.data.drop n)

/-- Substring test on character lists, Python `needle in hay`. -/
def containsSubList (needle : List Char) : List Char → Bool
  | [] => needle.isEmpty
  | c :: rest => needle.isPrefixOf (c :: rest) || containsSubList needle rest

/-- Python `needle in hay` for strings. -/
def containsSubstr (needle hay : String) : Bool := containsSubList needle.data hay.data

/-- Index of the first occurrence of `needle`, Python `hay.find(needle)`
(`none` for `-1`). -/
def findSubIdx (needle : List Char) : List Char → Option Nat
  | [] => if needle.isEmpty then some 0 else none
  | c :: rest =>
    if needle.isPrefixOf (c :: rest) then some 0
    else (findSubIdx needle rest).map (· + 1)

/-- Helper for `splitChar`, accumulating the current fragment reversed. -/
def splitCharAux (c : Char) : List Char → List Char → List String
  | [], acc => [String.mk acc.reverse]
  | x :: xs, acc =>
    if x = c then String.mk acc.reverse :: splitCharAux c xs []
    else splitCharAux c xs (x :: acc)

/-- Python `s.split(c)` for a one-character separator. -/
def splitChar (c : Char) (s : String) : List String := splitCharAux c s.data []

/-- Python `s.endswith(suffix)`. -/
def strEndsWith (s suffix : String) : Bool := suffix.data.isSuffixOf s.data

/-- Python word character (`\w` on the ASCII fragment). -/
def isWordChar (c : Char) : Bool := c.isAlphanum || c = '_'

/-- Python `bool(re.search(r'\d+', s))`: does the string contain a digit. -/
def hasDigit (s : String) : Bool := s.data.any Char.isDigit

/-- Python `s[0].isupper()` (false on the empty string, as guarded in the source). -/
def headIsUpper (s : String) : Bool :=
  match s.data with
  | [] => false
  | c :: _ => c.isUpper

/-! ## Exact decimals (`decimal.Decimal`)

A parsed decimal is a sign, an integer coefficient and a scale (number of
fractional digits); its value is `±coeff / 10^scale`.  This mirrors CPython's
`Decimal`, which stores exactly these data for the inputs reachable here
(no exponents or specials can survive the character filters below). -/

/-- Exact decimal value: `(-1)^neg * coeff / 10^scale`. -/
structure Dec where
  neg : Bool
  coeff : Nat
  scale : Nat
deriving DecidableEq

/-- Rational denotation of a `Dec`. -/
def denoteDec (d : Dec) : ℚ :=
  (if d.neg then -1 else 1) * (d.coeff : ℚ) / (10 : ℚ) ^ d.scale

/-- Value of a list of decimal digits, most significant first. -/
def digitsToNat (cs : List Char) : Nat :=
  cs.foldl (fun a c => a * 10 + (c.toNat - 48)) 0

/-- Python `Decimal(s)` restricted to the alphabet `[0-9.+-]` that can reach it
here: an optional leading sign, digits with at most one decimal point and at
least one digit.  Anything else raises `InvalidOperation`, modelled as `none`. -/
def pyDecimalOfString (s : String) : Option Dec :=
  let signSplit : Bool × List Char :=
    match s.data with
    | c :: r =>
      if c = '-' then (true, r) else if c = '+' then (false, r) else (false, c :: r)
    | [] => (false, [])
  match splitCharAux '.' signSplit.2 [] with
  | [a] =>
    if a.data.all Char.isDigit && a.data ≠ [] then
      some ⟨signSplit.1, digitsToNat a.data, 0⟩
    else none
  | [a, b] =>
    if a.data.all Char.isDigit && b.data.all Char.isDigit && (a.data ++ b.data) ≠ [] then
      some ⟨signSplit.1, digitsToNat (a.data ++ b.data), b.data.length⟩
    else none
  | _ => none

/-- Python `str(Decimal)` for a coefficient/scale pair (exponent is `-scale ≤ 0`;
scientific notation when the adjusted exponent is below `-6`, per the decimal
specification implemented by CPython). -/
def decToString (d : Dec) : String :=
  let ds := Nat.repr d.coeff
  let sign := if d.neg then "-" else ""
  if d.scale = 0 then sign ++ ds
  else if ds.length > d.scale then
    sign ++ strTake ds (ds.length - d.scale) ++ "." ++ strDrop ds (ds.length - d.scale)
  else if d.scale - ds.length ≤ 5 then
    sign ++ "0." ++ String.mk (List.replicate (d.scale - ds.length) '0') ++ ds
  else
    let adj : Int := (ds.length : Int) - 1 - (d.scale : Int)
    let mant := if ds.length = 1 then ds else strTake ds 1 ++ "." ++ strDrop ds 1
    sign ++ mant ++ "E" ++ Int.repr adj

/-! ## `to_decimal` — `tracker/utils/pdf_text_extractor.py`, lines 308-317 -/

/-- Character class kept by `re.sub(r'[^\d\.\,\-]', '', str(s))`. -/
def keepToDecimalChar (c : Char) : Bool := c.isDigit || c = '.' || c = ',' || c = '-'

/-- Embedding of `to_decimal` (pdf_text_extractor.py lines 308-317).  The
argument is the string found by `find_amount` or `None`; Python falsiness of
`None` and `''` is modelled by the two first branches.  `Decimal` raising is
`pyDecimalOfString` returning `none`; the surrounding `try/except` makes every
failure return `None`. -/
def to_decimal (s : Option String) : Option Dec :=
  match s with
  | none => none
  | some v =>
    if v = "" then none
    else
      let cleaned := pyStrip (String.mk (v.data.filter keepToDecimalChar))
      if cleaned ≠ "" && cleaned ≠ "." && cleaned ≠ "," && cleaned ≠ "-" then
        pyDecimalOfString (removeChar ',' cleaned)
      else none

/-! ## Amount normalization — `tracker/extraction_utils.py`, lines 254-266 -/

/-- Character filter of `re.sub(r'[^\d.]', '', amount_str)` in `extract_amount`
(extraction_utils.py line 262): keep digits and dots only — the minus sign is
removed. -/
def extractAmountClean (s : String) : String :=
  String.mk (s.data.filter (fun c => c.isDigit || c = '.'))

/-- Normalization step of `InvoiceExtractor.extract_amount`
(extraction_utils.py lines 260-266): clean, then `Decimal(...)` with
exceptions turned into `None`. -/
def extractAmountNormalize (s : String) : Option Dec :=
  pyDecimalOfString (extractAmountClean s)

/-- Modelled from the spec (§4.3 Amount Normalizer): "strips all characters
except digits, a single decimal separator, and sign, removes thousands
separators before parsing".  Used only to compare the specified
normalization against the one implemented by `extract_amount`. -/
def specMonetaryNormalize (s : String) : Option Dec :=
  pyDecimalOfString
    (removeChar ',' (String.mk (s.data.filter (fun c => c.isDigit || c = '.' || c = '-'))))

/-! ## Name/address disambiguation — `tracker/utils/pdf_text_extractor.py`,
lines 195-264 -/

/-- Keyword list of `is_likely_customer_name` (pdf_text_extractor.py line 201). -/
def addressKeywords : List String :=
  ["street", "avenue", "road", "box", "p.o", "po", "floor", "apt", "suite",
   "district", "region", "country"]

/-- Embedding of `is_likely_customer_name` (pdf_text_extractor.py lines 196-205). -/
def is_likely_customer_name (t : String) : Bool :=
  if t = "" then false
  else
    (decide (t.length < 80)) &&
    !(addressKeywords.any (fun kw => containsSubstr kw (lowerStr t))) &&
    headIsUpper t

/-- Indicator list of `is_likely_address` (pdf_text_extractor.py lines 212-213). -/
def addressIndicators : List String :=
  ["street", "avenue", "road", "box", "p.o", "po", "floor", "apt", "suite",
   "district", "region", "city", "country", "zip", "postal", "dar", "dar-es",
   "tanzania", "nairobi", "kenya"]

/-- Embedding of `is_likely_address` (pdf_text_extractor.py lines 207-217). -/
def is_likely_address (t : String) : Bool :=
  if t = "" then false
  else
    (addressIndicators.any (fun ind => containsSubstr ind (lowerStr t))) ||
    (hasDigit t && decide (t.length > 15))

/-- Python truthiness of an optional string (`None` and `''` are falsy). -/
def optTruthy (o : Option String) : Bool := o.any (fun s => s ≠ "")

/-- Embedding of the customer-name/address disambiguation of
`parse_invoice_data` (pdf_text_extractor.py lines 227-264), as a function of
the raw customer-name capture and the raw address capture:
line 228 clears an address-like, non-name-like customer name; lines 256-258
move a name-like address into an empty name slot; lines 261-264 move an
address-like name into an empty address slot (dead in practice because line
228 already cleared such a name). -/
def disambiguateNameAddress (name0 addr0 : Option String) :
    Option String × Option String :=
  let name1 :=
    if optTruthy name0 && is_likely_address (name0.getD "") &&
        !(is_likely_customer_name (name0.getD "")) then none
    else name0
  let swapped :=
    if !(optTruthy name1) && optTruthy addr0 &&
        is_likely_customer_name (addr0.getD "") then (addr0, (none : Option String))
    else (name1, addr0)
  if optTruthy swapped.1 && is_likely_address (swapped.1.getD "") &&
      !(is_likely_customer_name (swapped.1.getD "")) then
    if !(optTruthy swapped.2) then (none, swapped.1) else swapped
  else swapped

/-! ## Extraction rules — `tracker/extraction_utils.py`, lines 225-252

A rule is a database row's `(regex_pattern, extract_group)` pair.  Its
behaviour on a text is the denotation of
`re.search(regex, text, re.IGNORECASE | re.MULTILINE)` followed by
`match.group(group)` under the `try` of `extract_field`: either the search or
group access raises (`err`), or there is no match (`noMatch`), or the match
yields the group's capture (`matched`, with `none` for a non-participating
group). -/

/-- Result of one rule evaluation inside `extract_field`'s loop. -/
inductive RuleOutcome where
  | err
  | noMatch
  | matched (capture : Option String)
deriving DecidableEq

/-- An extraction rule as stored in `self.patterns[field_type]`
(extraction_utils.py lines 36-41): name, priority, and the denotation of its
regex + capture group. -/
structure Rule where
  name : String
  priority : Int
  search : String → RuleOutcome

/-- The loop of `InvoiceExtractor.extract_field` over one rule list
(extraction_utils.py lines 242-252): the first rule whose capture is truthy
returns the stripped capture; empty captures, failed matches and raising
rules are skipped. -/
def extractFieldRules : List Rule → String → Option String
  | [], _ => none
  | r :: rs, text =>
    match r.search text with
    | .matched (some c) => if c = "" then extractFieldRules rs text else some (pyStrip c)
    | _ => extractFieldRules rs text

/-- A rule "hits" when its capture participates and is non-empty; the hit
value is the stripped capture. -/
def ruleHit (r : Rule) (text : String) : Option String :=
  match r.search text with
  | .matched (some c) => if c = "" then none else some (pyStrip c)
  | _ => none

/-! ## Pattern registry — `tracker/extraction_utils.py`, lines 17-56 -/

/-- One active row of `InvoicePatternMatcher`, as delivered by
`objects.filter(is_active=True).order_by('priority')`; `search` is the
denotation of the row's regex + group (see `Rule`). -/
structure DbRow where
  name : String
  field_type : String
  priority : Int
  search : String → RuleOutcome

/-- The grouping loop of `_load_patterns_from_db` (extraction_utils.py lines
31-41): per field type, rules are appended in row order, so the per-field
list is the in-order sublist of rows of that field type. -/
def groupPatterns (rows : List DbRow) : String → List Rule
  | ft => (rows.filter (fun r => r.field_type = ft)).map
      (fun r => { name := r.name, priority := r.priority, search := r.search })

/-- One active `ServiceTemplate` row (extraction_utils.py lines 44-51). -/
structure TemplateRow where
  name : String
  keywords : String
  estimated_minutes : Int
  service_type : String

/-- Keyword parsing of `_load_patterns_from_db` line 46:
`[k.strip().lower() for k in (keywords or '').split(',') if k.strip()]`. -/
def parseKeywords (s : String) : List String :=
  ((splitChar ',' s).map (fun k => lowerStr (pyStrip k))).filter (fun k => k ≠ "")

/-- A loaded service template (extraction_utils.py lines 47-51). -/
structure ServiceTemplate where
  keywords : List String
  minutes : Int
  service_type : String

/-- Python dict update on an association list: replace the value in place if
the key exists, else append. -/
def dictInsert {α : Type} (d : List (String × α)) (k : String) (v : α) :
    List (String × α) :=
  if d.any (fun p => p.1 = k) then
    d.map (fun p => if p.1 = k then (k, v) else p)
  else d ++ [(k, v)]

/-- The template-loading loop of `_load_patterns_from_db` (lines 44-51). -/
def loadTemplates (rows : List TemplateRow) : List (String × ServiceTemplate) :=
  rows.foldl
    (fun acc r =>
      dictInsert acc r.name
        { keywords := parseKeywords r.keywords, minutes := r.estimated_minutes,
          service_type := r.service_type })
    []

/-- Data available from the database for one load: the pattern rows (already
filtered to active and ordered by priority by the ORM) and the template rows. -/
structure DbData where
  patternRows : List DbRow
  templateRows : List TemplateRow

/-- Mutable state of an `InvoiceExtractor` (extraction_utils.py lines 17-21). -/
structure ExtractorState where
  patterns : String → List Rule
  serviceTemplates : List (String × ServiceTemplate)
  loaded : Bool

/-- Freshly constructed extractor (`__init__`, lines 17-21). -/
def initExtractor : ExtractorState :=
  { patterns := fun _ => [], serviceTemplates := [], loaded := false }

/-- Embedding of `_load_patterns_from_db` (extraction_utils.py lines 23-56):
a no-op once loaded; on a database failure (the `except` branch) nothing is
populated but the loaded flag is still set, preventing any retry. -/
def loadPatternsFromDb (st : ExtractorState) (db : Except String DbData) :
    ExtractorState :=
  if st.loaded then st
  else
    match db with
    | .error _ => { st with loaded := true }
    | .ok data =>
      { patterns := groupPatterns data.patternRows,
        serviceTemplates := loadTemplates data.templateRows,
        loaded := true }

/-- The built-in default rule table `_default_patterns` (extraction_utils.py
lines 58-223).  Its fourteen regex lists are external pattern text whose
behaviour enters the model through each rule's `search` denotation, so the
table is a parameter of the functions that consult it. -/
abbrev FieldPatterns := String → List Rule

/-- Embedding of `InvoiceExtractor.extract_field` (extraction_utils.py lines
225-252): database rules for the field type if any were loaded, else the
default table's list for that type (`if not patterns` — an absent key and an
empty list are both falsy). -/
def extractField (st : ExtractorState) (defaults : FieldPatterns)
    (field_type text : String) : Option String :=
  let dbRules := st.patterns field_type
  let rules := if dbRules.isEmpty then defaults field_type else dbRules
  extractFieldRules rules text

/-- Embedding of `InvoiceExtractor.extract_amount` (extraction_utils.py lines
254-266): extract the `amount` field, return `None` when absent or falsy,
else normalize. -/
def extractAmount (st : ExtractorState) (defaults : FieldPatterns)
    (text : String) : Option Dec :=
  match extractField st defaults "amount" text with
  | none => none
  | some a => if a = "" then none else extractAmountNormalize a

/-! ## Service template matcher — `tracker/extraction_utils.py`, lines 288-313 -/

/-- Keyword score of one template against the lowered description
(extraction_utils.py line 308). -/
def scoreTemplate (descLower : String) (t : ServiceTemplate) : Nat :=
  (t.keywords.filter (fun kw => containsSubstr kw descLower)).length

/-- The best-match fold of `match_service_template` (lines 304-311):
`best` and `bestCount` are updated only on a strictly greater count. -/
def matchAux (descLower : String) :
    List (String × ServiceTemplate) → Option (String × Int) → Nat →
    Option (String × Int)
  | [], best, _ => best
  | (n, t) :: rest, best, bestCount =>
    let c := scoreTemplate descLower t
    if c > bestCount then matchAux descLower rest (some (n, t.minutes)) c
    else matchAux descLower rest best bestCount

/-- Embedding of `InvoiceExtractor.match_service_template` (extraction_utils.py
lines 288-313). -/
def matchServiceTemplate (templates : List (String × ServiceTemplate))
    (description : String) : Option (String × Int) :=
  if description = "" then none
  else matchAux (lowerStr description) templates none 0

/-! ## Python values and dict-shaped records

The value universe covers every shape that flows through the orchestrator's
record: `None`, strings, ints, `Decimal`s, lists (of strings or of item
dicts) and item dicts.  Raw item dicts (inputs to the normalization loop)
and normalized item dicts (its outputs) are fixed-shape structures whose
optional slots model present/absent keys. -/

/-- A numeric-or-string cell of a raw item dict (`int`, `Decimal` or `str`;
floats are outside the modelled universe). -/
inductive PyNum where
  | numInt (n : Int)
  | numDec (d : Dec)
  | numStr (s : String)
deriving DecidableEq

/-- A raw line-item dict as consumed by the normalization loop of
`process_invoice_extraction` (extraction_utils.py lines 510-518): each field
is the value at that key, `none` when the key is absent or `None`. -/
structure RawItem where
  code : Option String := none
  item_code : Option String := none
  description : Option String := none
  desc : Option String := none
  unit : Option String := none
  qty : Option PyNum := none
  rate : Option PyNum := none
  rate_tsh : Option PyNum := none
  value : Option PyNum := none
  amount : Option PyNum := none
  value_tsh : Option PyNum := none
  net_value : Option PyNum := none
  vat : Option PyNum := none
  gross_value : Option PyNum := none
deriving DecidableEq

/-- A normalized line-item dict as built at extraction_utils.py lines 538-549. -/
structure NormItem where
  line_no : Nat
  code : Option String
  description : Option String
  qty : Option Dec
  unit : Option String
  rate : Option Dec
  value : Option Dec
  net_value : Option Dec
  vat : Option Dec
  gross_value : Option Dec
deriving DecidableEq

/-- An element of a list-valued record field: a string or Python `None`
(both hashable), or an item dict (unhashable). -/
inductive PyElem where
  | elemStr (s : String)
  | elemNone
  | elemRaw (it : RawItem)
  | elemNorm (it : NormItem)
deriving DecidableEq

/-- A Python value stored in a record slot. -/
inductive PyVal where
  | pyNone
  | pyStr (s : String)
  | pyInt (n : Int)
  | pyDec (d : Dec)
  | pyList (l : List PyElem)
  | pyRawV (it : RawItem)
  | pyNormV (it : NormItem)
deriving DecidableEq

/-- Python truthiness of a record value (item dicts always carry keys here,
hence are truthy). -/
def pyTruthy : PyVal → Bool
  | .pyNone => false
  | .pyStr s => s ≠ ""
  | .pyInt n => n ≠ 0
  | .pyDec d => d.coeff ≠ 0
  | .pyList l => !l.isEmpty
  | .pyRawV _ => true
  | .pyNormV _ => true

/-- A Python dict with string keys, in insertion order. -/
abbrev Record := List (String × PyVal)

/-- Python `d.get(k)` / `d[k]` lookup (first matching key). -/
def recGet (m : Record) (k : String) : Option PyVal :=
  (m.find? (fun p => p.1 = k)).map (fun p => p.2)

/-- Python `d[k] = v`: replace in place when the key exists, else append. -/
def recSet (m : Record) (k : String) (v : PyVal) : Record :=
  if m.any (fun p => p.1 = k) then
    m.map (fun p => if p.1 = k then (k, v) else p)
  else m ++ [(k, v)]

/-- Python `d.pop(k, None)`. -/
def recPop (m : Record) (k : String) : Record := m.filter (fun p => p.1 ≠ k)

/-- Truthiness of `d.get(k)` (missing key gives `None`, falsy). -/
def truthyAt (m : Record) (k : String) : Bool := (recGet m k).any pyTruthy

/-- Keep the entries whose computed value is not `None` — the comprehension
`{k: v for k, v in extracted.items() if v is not None}` at
extraction_utils.py line 373. -/
def dropNoneEntries (l : List (String × Option PyVal)) : Record :=
  l.filterMap (fun p => p.2.map (fun v => (p.1, v)))

/-! ## `extract_all` — `tracker/extraction_utils.py`, lines 315-373 -/

/-- Case-insensitive literal word match: consume `w` from the head of `cs`.
Used to embed the fixed labels of the fallback regexes. -/
def stripPrefixCI : List Char → List Char → Option (List Char)
  | [], cs => some cs
  | _, [] => none
  | w :: ws, c :: cs => if c.toLower = w.toLower then stripPrefixCI ws cs else none

/-- Drop leading whitespace characters (`\s*`). -/
def dropSpaces (cs : List Char) : List Char := cs.dropWhile Char.isWhitespace

/-- Embedding of `re.match(r'(?i)^customer\s*name\s*[:\-]?\s*$', ln)`
(extraction_utils.py line 352) on one already-stripped line: the literal
`customer`, optional spaces, `name`, optional spaces, an optional colon or
dash, optional spaces, end of line. -/
def isCustomerNameLabelOnly (s : String) : Bool :=
  match stripPrefixCI "customer".data s.data with
  | none => false
  | some r1 =>
    match stripPrefixCI "name".data (dropSpaces r1) with
    | none => false
    | some r2 =>
      let r3 := dropSpaces r2
      let r4 := match r3 with
        | ':' :: rest => rest
        | '-' :: rest => rest
        | rest => rest
      (dropSpaces r4).isEmpty

/-- Word boundary after an alternative that ends in a word character: the
next character is absent or not a word character. -/
def boundaryAfter (rest : List Char) : Bool :=
  match rest with
  | [] => true
  | c :: _ => !isWordChar c

/-- Embedding of `re.match(r'(?i)^(address|tel|telephone|fax|attended|kind\s*attn|ref|reference|pi\s*no\.|date)\b', nxt)`
(extraction_utils.py line 359).  For the alternatives ending in a word
character `\b` needs a non-word character (or the end) next; for
`pi\s*no\.`, whose last character is `.`, `\b` holds only when the next
character is a word character. -/
def isOtherLabelLine (s : String) : Bool :=
  let cs := s.data
  (["address", "telephone", "tel", "fax", "attended", "reference", "ref",
    "date"].any fun w =>
      match stripPrefixCI w.data cs with
      | some r => boundaryAfter r
      | none => false) ||
  (match stripPrefixCI "kind".data cs with
   | some r =>
     match stripPrefixCI "attn".data (dropSpaces r) with
     | some r2 => boundaryAfter r2
     | none => false
   | none => false) ||
  (match stripPrefixCI "pi".data cs with
   | some r =>
     match stripPrefixCI "no.".data (dropSpaces r) with
     | some r2 =>
       match r2 with
       | c :: _ => isWordChar c
       | [] => false
     | none => false
   | none => false)

/-- First non-empty entry of a list of (already stripped) lines. -/
def firstNonEmptyLine : List String → Option String
  | [] => none
  | l :: ls => if l ≠ "" then some l else firstNonEmptyLine ls

/-- The next-line fallback loop for `customer_name` (extraction_utils.py
lines 349-363) over the stripped lines of the text: at a line that is only a
`Customer Name` label, take the next non-empty line unless it looks like
another label (in which case the scan continues with the following lines,
since the loop neither assigns nor breaks then). -/
def nextLineFallback : List String → Option String
  | [] => none
  | l :: ls =>
    if isCustomerNameLabelOnly l then
      match firstNonEmptyLine ls with
      | some nxt =>
        if isOtherLabelLine nxt then nextLineFallback ls else some nxt
      | none => nextLineFallback ls
    else nextLineFallback ls

/-- The entry list built by `extract_all` (extraction_utils.py lines 327-371)
before `None` removal, in dict insertion order: the seventeen field slots,
the customer-name next-line fallback applied when the extracted name is
falsy, and the two template-match slots appended when a service description
is present and matches a template. -/
def extractAllEntries (st : ExtractorState) (defaults : FieldPatterns)
    (text : String) : List (String × Option PyVal) :=
  let ef := fun ft => extractField st defaults ft text
  let cn0 := ef "customer_name"
  let cn :=
    if optTruthy cn0 then cn0
    else
      match nextLineFallback ((splitChar '\n' text).map pyStrip) with
      | some nxt => some nxt
      | none => cn0
  let sdesc := ef "service_description"
  let amountStr : Option String :=
    match extractAmount st defaults text with
    | some d => if d.coeff ≠ 0 then some (decToString d) else none
    | none => none
  let base : List (String × Option PyVal) :=
    [("plate_number", (ef "plate_number").map .pyStr),
     ("customer_name", cn.map .pyStr),
     ("customer_phone", (ef "customer_phone").map .pyStr),
     ("customer_email", (ef "customer_email").map .pyStr),
     ("customer_tel", (ef "customer_tel").map .pyStr),
     ("address", (ef "address").map .pyStr),
     ("service_description", sdesc.map .pyStr),
     ("item_name", sdesc.map .pyStr),
     ("quantity", (ef "quantity").map .pyStr),
     ("amount", amountStr.map .pyStr),
     ("reference", (ef "reference").map .pyStr),
     ("code_no", (ef "code_no").map .pyStr),
     ("customer_code", (ef "code_no").map .pyStr),
     ("pi_no", (ef "pi_no").map .pyStr),
     ("invoice_date", (ef "invoice_date").map .pyStr),
     ("del_date", (ef "del_date").map .pyStr),
     ("attended_by", (ef "attended_by").map .pyStr)]
  let tmpl : Option (String × Int) :=
    match sdesc with
    | some d => if d ≠ "" then matchServiceTemplate st.serviceTemplates d else none
    | none => none
  base ++
    (match tmpl with
     | some nm => [("matched_service", some (.pyStr nm.1)),
                   ("estimated_minutes", some (.pyInt nm.2))]
     | none => [])

/-- Embedding of `InvoiceExtractor.extract_all` (extraction_utils.py lines
315-373): build the entries, then drop the `None` values. -/
def extractAll (st : ExtractorState) (defaults : FieldPatterns)
    (text : String) : Record :=
  dropNoneEntries (extractAllEntries st defaults text)

/-! ## Structured merge — `tracker/extraction_utils.py`, lines 457-464 -/

/-- Is the element unhashable (a dict)?  `dict.fromkeys` raises `TypeError`
on such an element. -/
def elemUnhashable : PyElem → Bool
  | .elemStr _ => false
  | .elemNone => false
  | .elemRaw _ => true
  | .elemNorm _ => true

/-- Order-preserving deduplication `list(dict.fromkeys(l))`, raising on an
unhashable element. -/
def pyDedupAux (seen : List PyElem) : List PyElem → Except String (List PyElem)
  | [] => .ok []
  | e :: es =>
    if elemUnhashable e then .error "TypeError: unhashable type"
    else if e ∈ seen then pyDedupAux seen es
    else (pyDedupAux (e :: seen) es).map (fun l => e :: l)

/-- Python `list(dict.fromkeys(l))`. -/
def pyDedup (l : List PyElem) : Except String (List PyElem) := pyDedupAux [] l

/-- One iteration of the merge loop (extraction_utils.py lines 459-464):
fill a gap with a truthy value, or combine two list values without
duplicates. -/
def mergeStep (m : Record) (kv : String × PyVal) : Except String Record :=
  if !truthyAt m kv.1 && pyTruthy kv.2 then .ok (recSet m kv.1 kv.2)
  else
    match kv.2, recGet m kv.1 with
    | .pyList lv, some (.pyList lm) =>
      (pyDedup (lm ++ lv)).map (fun l => recSet m kv.1 (.pyList l))
    | _, _ => .ok m

/-- The merge of `doc_struct` into `invoice_fields` (extraction_utils.py
lines 458-464): start from a copy of `invoice_fields` and fold the loop over
the entries of `doc_struct`. -/
def mergeStructured (invoiceFields docStruct : Record) : Except String Record :=
  docStruct.foldlM mergeStep invoiceFields

/-! ## The merge block of `process_invoice_extraction` —
`tracker/extraction_utils.py`, lines 450-602 -/

/-- Python truthiness of a numeric-or-string cell. -/
def numTruthy : PyNum → Bool
  | .numInt n => n ≠ 0
  | .numDec d => d.coeff ≠ 0
  | .numStr s => s ≠ ""

/-- Python `a or b` on optional numeric cells (first operand when truthy,
else second operand — which may itself be falsy or absent). -/
def pyOrNum (a b : Option PyNum) : Option PyNum :=
  if a.any numTruthy then a else b

/-- Python `a or b` on optional strings. -/
def pyOrStr (a b : Option String) : Option String :=
  if optTruthy a then a else b

/-- The local `_to_decimal` helper (extraction_utils.py lines 520-529):
`None` stays `None`; ints and `Decimal`s go through `Decimal(str(v))`
exactly; strings are comma-stripped, stripped and parsed, with every
exception giving `None`.  String parsing uses the sign-digits-dot grammar of
`pyDecimalOfString`; exponent forms such as `1E3`, which CPython's `Decimal`
would also accept, are modelled as parse failures — no settled claim
depends on the value computed for such inputs. -/
def mergeToDecimal : Option PyNum → Option Dec
  | none => none
  | some (.numInt n) => some ⟨n < 0, n.natAbs, 0⟩
  | some (.numDec d) => some d
  | some (.numStr s) => pyDecimalOfString (pyStrip (removeChar ',' s))

/-- Normalization of one raw item dict (extraction_utils.py lines 510-549)
at 1-based position `idx`. -/
def normalizeRawItem (idx : Nat) (it : RawItem) : NormItem :=
  let code := pyStrip ((pyOrStr it.code it.item_code).getD "")
  let desc := pyStrip ((pyOrStr it.description it.desc).getD "")
  { line_no := idx,
    code := if code = "" then none else some code,
    description := if desc = "" then none else some desc,
    qty := mergeToDecimal it.qty,
    unit := it.unit.bind (fun s => if s = "" then none else some s),
    rate := mergeToDecimal (pyOrNum it.rate it.rate_tsh),
    value := mergeToDecimal (pyOrNum it.value (pyOrNum it.amount it.value_tsh)),
    net_value := mergeToDecimal it.net_value,
    vat := mergeToDecimal it.vat,
    gross_value := mergeToDecimal it.gross_value }

/-- Re-normalization of an already normalized item dict through the same loop
(its keys are `code`, `description`, `qty`, `unit`, `rate`, `value`,
`net_value`, `vat`, `gross_value`; the chained `or` lookups fall through to
absent keys, and `Decimal(str(v))` round-trips a `Decimal` exactly). -/
def renormalizeNormItem (idx : Nat) (it : NormItem) : NormItem :=
  let code := pyStrip (it.code.getD "")
  let desc := pyStrip (it.description.getD "")
  { line_no := idx,
    code := if code = "" then none else some code,
    description := if desc = "" then none else some desc,
    qty := it.qty,
    unit := it.unit.bind (fun s => if s = "" then none else some s),
    rate := it.rate.bind (fun d => if d.coeff ≠ 0 then some d else none),
    value := it.value.bind (fun d => if d.coeff ≠ 0 then some d else none),
    net_value := it.net_value,
    vat := it.vat,
    gross_value := it.gross_value }

/-- The item-normalization loop (extraction_utils.py lines 508-549):
`enumerate(items, start=1)`, with `it.get(...)` raising `AttributeError`
when the element is a plain string. -/
def normalizeItems (idx : Nat) : List PyElem → Except String (List NormItem)
  | [] => .ok []
  | .elemStr _ :: _ => .error "AttributeError: str has no attribute get"
  | .elemNone :: _ => .error "AttributeError: NoneType has no attribute get"
  | .elemRaw it :: rest =>
    (normalizeItems (idx + 1) rest).map (fun l => normalizeRawItem idx it :: l)
  | .elemNorm it :: rest =>
    (normalizeItems (idx + 1) rest).map (fun l => renormalizeNormItem idx it :: l)

/-- Embedding of `_looks_like_noise` (extraction_utils.py lines 555-559). -/
def looksLikeNoise (s : String) : Bool :=
  if s = "" then true
  else
    let s_up := upperStr (pyStrip s)
    containsSubstr "PROFORMA INVOICE" s_up || containsSubstr "CODE DESCRIPTION" s_up ||
      decide ((pyStrip s).length < 3)

/-- Read a record slot as Python `merged.get(k) or ''` followed by a string
operation: missing or falsy values give `''`; a truthy non-string raises. -/
def getStrOrEmpty (m : Record) (k : String) : Except String String :=
  match recGet m k with
  | none => .ok ""
  | some v =>
    if !pyTruthy v then .ok ""
    else
      match v with
      | .pyStr s => .ok s
      | _ => .error "AttributeError: value is not a string"

/-- Outcome of the guarded call to `DocumentExtractor._extract_items` at
extraction_utils.py lines 499-505 (the module is external to the engine, so
its behaviour is an input; the `except` branch yields an empty list). -/
inductive ItemsTry where
  | raised
  | ok (l : List PyElem)

/-- Denotations of the fixed regex searches and the external item extractor
used inside the merge block, as functions of the text they scan:
`codeNoSearch` is the `Code No` labelled-line search of line 471 (pattern
`(?mi)^\s*Code\s*No\.?\s*[:\-]?\s*(G+)\s*$` with `G` the class of capital
letters, digits, dashes and slashes), `referenceSearch` is
`re.search(r'Reference\s*[:\-]?\s*([A-Z0-9\s-]{3,30})', text, re.IGNORECASE)`
(line 477), `plateFromRef` is
`re.search(r'([A-Z]{1,3}\s?\d{3,5}\s?[A-Z]{0,3})', ref_val, re.IGNORECASE)`
(line 484) applied to the reference value, and `vatSearch`, `netSearch`,
`grossSearch` are the three labelled total regexes of lines 572-578; each
yields the captured group or `none`. -/
structure MergeOracles where
  codeNoSearch : String → Option String
  referenceSearch : String → Option String
  plateFromRef : String → Option String
  extractItems : String → ItemsTry
  vatSearch : String → Option String
  netSearch : String → Option String
  grossSearch : String → Option String

/-- First element access `doc_struct.get('vehicle_plates')[0]` (line 490) on
a value already known truthy: a list yields its head as a value — a `None`
head is assigned verbatim — a string yields its first character, and
anything else raises `TypeError`. -/
def indexZero : PyVal → Except String PyVal
  | .pyList (e :: _) => .ok (match e with
      | .elemStr s => .pyStr s
      | .elemNone => .pyNone
      | .elemRaw it => .pyRawV it
      | .elemNorm it => .pyNormV it)
  | .pyList [] => .error "IndexError"
  | .pyStr s => .ok (.pyStr (strTake s 1))
  | _ => .error "TypeError: value is not subscriptable"

/-- Gap fill for the customer code (extraction_utils.py lines 470-473). -/
def stageCodeNo (oracles : MergeOracles) (text : String) (m : Record) : Record :=
  if !truthyAt m "code_no" && !truthyAt m "customer_code" then
    match oracles.codeNoSearch text with
    | some c => recSet m "customer_code" (.pyStr (pyStrip c))
    | none => m
  else m

/-- Gap fill for the reference (extraction_utils.py lines 476-479). -/
def stageReference (oracles : MergeOracles) (text : String) (m : Record) : Record :=
  if !truthyAt m "reference" then
    match oracles.referenceSearch text with
    | some v => recSet m "reference" (.pyStr (pyStrip v))
    | none => m
  else m

/-- Plate heuristic from the reference value (extraction_utils.py lines
482-486); `re.search` on a truthy non-string reference raises. -/
def stagePlateFromRef (oracles : MergeOracles) (m : Record) :
    Except String Record :=
  match recGet m "reference" with
  | some rv =>
    if pyTruthy rv then
      if !truthyAt m "plate_number" then
        match rv with
        | .pyStr s =>
          match oracles.plateFromRef s with
          | some p => .ok (recSet m "plate_number" (.pyStr (pyStrip p)))
          | none => .ok m
        | _ => .error "TypeError: expected string or bytes-like object"
      else .ok m
    else .ok m
  | none => .ok m

/-- Plate fill from the decoder's `vehicle_plates` (extraction_utils.py
lines 489-490). -/
def stageVehiclePlates (docStruct : Record) (m : Record) :
    Except String Record :=
  if !truthyAt m "plate_number" && truthyAt docStruct "vehicle_plates" then
    match recGet docStruct "vehicle_plates" with
    | some v => (indexZero v).map (fun e => recSet m "plate_number" e)
    | none => .ok m
  else .ok m

/-- Item-source selection (extraction_utils.py lines 493-505): the merged
record's list, else the decoder's list, else the guarded external
extractor. -/
def selectItems (oracles : MergeOracles) (text : String) (docStruct m : Record) :
    List PyElem :=
  match recGet m "items" with
  | some (.pyList l) => l
  | _ =>
    match recGet docStruct "items" with
    | some (.pyList l) => l
    | _ =>
      match oracles.extractItems text with
      | .ok l => l
      | .raised => []

/-- Attach the normalized items when non-empty (extraction_utils.py lines
551-552). -/
def stageItems (normalizedItems : List NormItem) (m : Record) : Record :=
  if !normalizedItems.isEmpty then
    recSet m "items" (.pyList (normalizedItems.map .elemNorm))
  else m

/-- The replacement candidate for a noisy service description: the first
normalized item whose description has a non-empty strip (extraction_utils.py
line 563), defaulting to the empty string. -/
def noiseCand (normalizedItems : List NormItem) : String :=
  ((normalizedItems.find? (fun it => pyStrip (it.description.getD "") ≠ "")).bind
    (fun it => it.description)).getD ""

/-- Noise suppression for the service description (extraction_utils.py lines
554-568). -/
def stageNoise (normalizedItems : List NormItem) (m : Record) :
    Except String Record := do
  let sdesc ← getStrOrEmpty m "service_description"
  if looksLikeNoise sdesc then
    if noiseCand normalizedItems ≠ "" then
      .ok (recSet (recSet m "service_description" (.pyStr (noiseCand normalizedItems)))
        "item_name" (.pyStr (noiseCand normalizedItems)))
    else .ok m
  else .ok m

/-- Set one labelled total from an optional regex capture
(extraction_utils.py lines 572-580: `group(1).replace(',', '').strip()`). -/
def setTotal (k : String) (res : Option String) (m : Record) : Record :=
  match res with
  | some v => recSet m k (.pyStr (pyStrip (removeChar ',' v)))
  | none => m

/-- Labelled totals extraction (extraction_utils.py lines 571-582), applied
in source order: VAT, then net value, then gross value. -/
def stageTotals (oracles : MergeOracles) (text : String) (m : Record) : Record :=
  setTotal "gross_value" (oracles.grossSearch text)
    (setTotal "net_value" (oracles.netSearch text)
      (setTotal "vat_amount" (oracles.vatSearch text) m))

/-- The resolved service description
`merged.get('service_description') or merged.get('item_name') or
merged.get('description')` (extraction_utils.py line 585): the first truthy
value of the three lookups. -/
def resolveServiceDesc (m : Record) : Option PyVal :=
  match recGet m "service_description" with
  | some v =>
    if pyTruthy v then some v
    else
      match recGet m "item_name" with
      | some w =>
        if pyTruthy w then some w
        else (recGet m "description").filter pyTruthy
      | none => (recGet m "description").filter pyTruthy
  | none =>
    match recGet m "item_name" with
    | some w =>
      if pyTruthy w then some w
      else (recGet m "description").filter pyTruthy
    | none => (recGet m "description").filter pyTruthy

/-- Service-template match over the resolved description (extraction_utils.py
lines 584-590); `description.lower()` on a truthy non-string raises. -/
def stageTemplate (st : ExtractorState) (m : Record) : Except String Record :=
  match resolveServiceDesc m with
  | some (.pyStr s) =>
    (match matchServiceTemplate st.serviceTemplates s with
     | some nm =>
       .ok (recSet (recSet m "matched_service" (.pyStr nm.1))
         "estimated_minutes" (.pyInt nm.2))
     | none => .ok m)
  | some _ => .error "AttributeError: description is not a string"
  | none => .ok m

/-- The merge block of `process_invoice_extraction` (extraction_utils.py
lines 453-592), entered when the external document extraction succeeded:
runs `extract_all`, merges the decoder's structured data, attaches the
10000-character raw-text excerpt, fills code/reference/plate gaps,
consolidates and normalizes items, suppresses noisy service descriptions,
extracts labelled totals and attaches a service-template match.  Any raised
step is an `error`, caught by the enclosing `except`. -/
def mergeBlock (st : ExtractorState) (defaults : FieldPatterns)
    (oracles : MergeOracles) (text : String) (docStruct : Record) :
    Except String Record := do
  let invoiceFields := extractAll st defaults text
  let merged ← mergeStructured invoiceFields docStruct
  let merged := recSet merged "raw_text" (.pyStr (strTake text 10000))
  let merged := stageCodeNo oracles text merged
  let merged := stageReference oracles text merged
  let merged ← stagePlateFromRef oracles merged
  let merged ← stageVehiclePlates docStruct merged
  let items := selectItems oracles text docStruct merged
  let normalizedItems ← normalizeItems 1 items
  let merged := stageItems normalizedItems merged
  let merged ← stageNoise normalizedItems merged
  let merged := stageTotals oracles text merged
  stageTemplate st merged

/-! ## Orchestrator — `tracker/extraction_utils.py`, lines 386-618 -/

/-- Result of the guarded call to `DocumentExtractor().extract_from_file`
(extraction_utils.py lines 406-428): `success`, the extracted raw text, and
the structured side-channel data; `error` is the decoder's error message. -/
structure DocResult where
  success : Bool
  raw_text : String
  structured_data : Record
  error : Option String

/-- Whether the `try` around the external document extraction raised (any of
temp-file handling, import, or `extract_from_file` — line 429), or returned
a result dict. -/
inductive ExtractTry where
  | raised
  | returned (r : DocResult)

/-- The orchestrator's view of one uploaded document: its filename, the
outcome of the external binary extraction, and the outcome of the raw
`file.read().decode('utf-8')` fallback (lines 431-435), `none` when that
decode raises. -/
structure DocScan where
  filename : String
  extractTry : ExtractTry
  rawDecode : Option String

/-- Image-extension test of extraction_utils.py line 401. -/
def isImageName (name : String) : Bool :=
  [".png", ".jpg", ".jpeg", ".gif", ".bmp"].any (fun e => strEndsWith (lowerStr name) e)

/-- Text normalization of extraction_utils.py lines 438-447: drop carriage
returns and, when a `proforma invoice` heading occurs (case-insensitively),
drop everything before it. -/
def normalizeProforma (t : String) : String :=
  if t = "" then t
  else
    let norm := removeChar '\r' t
    match findSubIdx "proforma invoice".data (lowerStr norm).data with
    | some i => strDrop norm i
    | none => norm

/-- The minimal single-pass fallback of extraction_utils.py lines 594-597 and
600-601: `extract_all` plus the 5000-character raw-text excerpt. -/
def fallbackRecord (st : ExtractorState) (defaults : FieldPatterns)
    (text : String) : Record :=
  recSet (extractAll st defaults text) "raw_text" (.pyStr (strTake text 5000))

/-- The final plate cleanup of extraction_utils.py lines 604-612: a truthy
string plate whose uppercased, dot-to-space, stripped form contains the
postal-box vocabulary is popped; a truthy non-string plate makes
`plate.upper()` raise, which the `except: pass` swallows, leaving the record
unchanged. -/
def plateNormalize (p : String) : String :=
  pyStrip (String.mk (p.data.map (fun c => if c = '.' then ' ' else c.toUpper)))

/-- The four vocabulary tests of extraction_utils.py line 609 (the last two
are kept verbatim even though dots were already replaced by spaces). -/
def boxVocab (p : String) : Bool :=
  let up := plateNormalize p
  containsSubstr "BOX" up || containsSubstr "P O BOX" up ||
    containsSubstr "P O  BOX" up || containsSubstr "P.O" up

/-- Embedding of the plate-cleanup step (extraction_utils.py lines 604-612). -/
def plateCleanup (m : Record) : Record :=
  match recGet m "plate_number" with
  | some (.pyStr p) =>
    if p ≠ "" && boxVocab p then recPop m "plate_number" else m
  | _ => m

/-- The result of `process_invoice_extraction`: a record of extracted fields
or an `(error, reason)` mapping. -/
inductive Outcome where
  | record (r : Record)
  | error (msg : String)
deriving DecidableEq

/-- The record produced inside the orchestrator's inner `try` (lines
450-602): the merge block's result on success, and the minimal fallback
record when the merge block raises — either through one of the embedded
failure paths or through a Python-runtime exception modelled by
`unexpectedMerge`. -/
def mergedOrFallback (st : ExtractorState) (defaults : FieldPatterns)
    (oracles : MergeOracles) (text : String) (docStruct : Record)
    (unexpectedMerge : Option String) : Record :=
  match unexpectedMerge with
  | some _ => fallbackRecord st defaults text
  | none =>
    match mergeBlock st defaults oracles text docStruct with
    | .ok m => m
    | .error _ => fallbackRecord st defaults text

/-- The success branch of the orchestrator (extraction_utils.py lines
424-428 and 450-614): on a successful decode, the cleaned merged-or-fallback
record; otherwise the decoder's error. -/
def processReturned (st : ExtractorState) (defaults : FieldPatterns)
    (oracles : MergeOracles) (dr : DocResult)
    (unexpectedMerge : Option String) : Outcome :=
  if dr.success then
    .record (plateCleanup
      (mergedOrFallback st defaults oracles (normalizeProforma dr.raw_text)
        dr.structured_data unexpectedMerge))
  else .error (dr.error.getD "Extraction failed")

/-- The branch taken when the external extractor raised (extraction_utils.py
lines 429-435 and 593-614): the raw-decode text feeds the minimal fallback,
or the decode failure is surfaced as an error. -/
def processRaisedDecode (st : ExtractorState) (defaults : FieldPatterns)
    (rawDecode : Option String) : Outcome :=
  match rawDecode with
  | some t0 =>
    .record (plateCleanup (fallbackRecord st defaults (normalizeProforma t0)))
  | none => .error "Could not extract text from document"

/-- The body of the orchestrator's outer `try` after the image check. -/
def processTry (st : ExtractorState) (defaults : FieldPatterns)
    (oracles : MergeOracles) (scan : DocScan)
    (unexpectedMerge : Option String) : Outcome :=
  match scan.extractTry with
  | .returned dr => processReturned st defaults oracles dr unexpectedMerge
  | .raised => processRaisedDecode st defaults scan.rawDecode

/-- Embedding of `process_invoice_extraction` (extraction_utils.py lines
386-618).  `db` is the database outcome seen by the extractor's single
pattern load; `unexpectedMerge` models a Python-runtime exception raised
inside the `try` of lines 451-602 beyond the failure paths already embedded
in `mergeBlock` (its handler at lines 598-602 falls back to the minimal
extraction); `outerExc` models an exception anywhere else inside the outer
`try`, whose handler at lines 616-618 returns the error mapping. -/
def processInvoiceExtraction (defaults : FieldPatterns) (db : Except String DbData)
    (scan : DocScan) (oracles : MergeOracles)
    (unexpectedMerge outerExc : Option String) : Outcome :=
  match outerExc with
  | some e => .error e
  | none =>
    if isImageName scan.filename then
      .error "Image extraction disabled. Please upload a PDF or text-based document."
    else
      processTry (loadPatternsFromDb initExtractor db) defaults oracles scan
        unexpectedMerge

/-! ## Helper lemmas about the rule loop -/

theorem extractFieldRules_cons (r : Rule) (rs : List Rule) (text : String) :
    extractFieldRules (r :: rs) text =
      match ruleHit r text with
      | some w => some w
      | none => extractFieldRules rs text := by
  show (match r.search text with
    | .matched (some c) => if c = "" then extractFieldRules rs text else some (pyStrip c)
    | _ => extractFieldRules rs text) = _
  unfold ruleHit
  cases r.search text with
  | err => rfl
  | noMatch => rfl
  | matched c =>
    cases c with
    | none => rfl
    | some s => by_cases hse : s = "" <;> simp [hse]

theorem extractFieldRules_cons_hit {r : Rule} {text w : String} {rs : List Rule}
    (h : ruleHit r text = some w) :
    extractFieldRules (r :: rs) text = some w := by
  rw [extractFieldRules_cons, h]

theorem extractFieldRules_cons_miss {r : Rule} {text : String} {rs : List Rule}
    (h : ruleHit r text = none) :
    extractFieldRules (r :: rs) text = extractFieldRules rs text := by
  rw [extractFieldRules_cons, h]

theorem ruleHit_eq_some_iff (r : Rule) (text v : String) :
    ruleHit r text = some v ↔
      ∃ c, r.search text = .matched (some c) ∧ c ≠ "" ∧ v = pyStrip c := by
  unfold ruleHit
  cases hs : r.search text with
  | err => simp
  | noMatch => simp
  | matched c =>
    cases c with
    | none => simp
    | some s =>
      by_cases hse : s = ""
      · simp [hse]
      · simp only [if_neg hse]
        constructor
        · intro h
          exact ⟨s, rfl, hse, (Option.some_injective _ h).symm⟩
        · rintro ⟨c, hc, hc0, hv⟩
          have hsc : s = c := by
            have := hc
            injection this with h1
            injection h1
          rw [hv, hsc]
    
theorem ruleHit_eq_none_iff (r : Rule) (text : String) :
    ruleHit r text = none ↔
      ∀ c, r.search text = .matched (some c) → c = "" := by
  unfold ruleHit
  cases hs : r.search text with
  | err => simp
  | noMatch => simp
  | matched c =>
    cases c with
    | none => simp
    | some s =>
      by_cases hse : s = ""
      · simp [hse]
      · simp only [if_neg hse]
        constructor
        · intro h; exact absurd h (by simp)
        · intro h
          exact absurd (h s rfl) hse

/-- First-hit characterization of `extract_field`'s rule loop: the returned
value is the hit of the first hitting rule. -/
theorem extractFieldRules_char (rules : List Rule) (text v : String) :
    extractFieldRules rules text = some v ↔
      ∃ i : Fin rules.length, ruleHit (rules.get i) text = some v ∧
        ∀ j : Fin rules.length, (j : Nat) < (i : Nat) →
          ruleHit (rules.get j) text = none := by
  induction rules with
  | nil =>
    constructor
    · intro h; exact absurd h (by simp [extractFieldRules])
    · rintro ⟨i, -, -⟩; exact i.elim0
  | cons r rs ih =>
    have hlen : (r :: rs).length = rs.length + 1 := rfl
    cases hr : ruleHit r text with
    | some w =>
      rw [extractFieldRules_cons_hit hr]
      constructor
      · intro h
        refine ⟨⟨0, by omega⟩, ?_, ?_⟩
        · show ruleHit r text = some v
          rw [hr]; exact h
        · rintro ⟨j, hj⟩ hjlt
          simp at hjlt
      · rintro ⟨⟨i, hilen⟩, hi, hlt⟩
        match i, hilen with
        | 0, h0 =>
          have : ruleHit r text = some v := hi
          rw [hr] at this; exact this
        | k + 1, hk =>
          have h0 : ruleHit ((r :: rs).get ⟨0, by omega⟩) text = none :=
            hlt ⟨0, by omega⟩ (by simp)
          have : ruleHit r text = none := h0
          rw [hr] at this; cases this
    | none =>
      rw [extractFieldRules_cons_miss hr, ih]
      constructor
      · rintro ⟨⟨i, hilen⟩, hi, hlt⟩
        refine ⟨⟨i + 1, by omega⟩, hi, ?_⟩
        rintro ⟨j, hj⟩ hlt2
        match j, hj with
        | 0, _ => exact hr
        | k + 1, hk =>
          exact hlt ⟨k, by omega⟩ (by simpa using hlt2)
      · rintro ⟨⟨i, hilen⟩, hi, hlt⟩
        match i, hilen with
        | 0, h0 =>
          have : ruleHit r text = some v := hi
          rw [hr] at this; cases this
        | k + 1, hk =>
          refine ⟨⟨k, by omega⟩, hi, ?_⟩
          rintro ⟨j, hj⟩ hlt2
          exact hlt ⟨j + 1, by omega⟩ (by simpa using hlt2)

/-! ## Claim C4 — name/address disambiguation -/

/-- Claim C4, counterexample.  The claim asserts that for
`customer_name = "P.O. Box 455, Dar es Salaam"` and an empty address slot the
disambiguation produces an absent `customer_name` and an `address` holding
that string.  On the code (pdf_text_extractor.py line 228) the address-like,
non-name-like customer name is cleared to `None` before the swap logic ever
runs, so the later move-into-address branch (lines 261-264) sees an empty
name and does nothing: both slots come out absent. -/
theorem C4_counterexample :
    disambiguateNameAddress (some "P.O. Box 455, Dar es Salaam") none =
        (none, none) ∧
      disambiguateNameAddress (some "P.O. Box 455, Dar es Salaam") none ≠
        (none, some "P.O. Box 455, Dar es Salaam") := by
  constructor
  · decide
  · decide

/-- Claim C4, amended.  In the disambiguation step of `parse_invoice_data`, a
customer-name capture that looks like an address and not like a name is
discarded — cleared to absent, not moved into the address slot — so with an
empty address slot both slots end up absent; symmetrically, a name-like
value in the address slot is moved into an empty customer_name slot (and the
address slot is cleared).  In particular, for
`customer_name = "P.O. Box 455, Dar es Salaam"` with empty address, the
parsed result has both `customer_name` and `address` absent. -/
theorem C4_amended_theorem :
    (∀ n : String, n ≠ "" → is_likely_address n = true →
      is_likely_customer_name n = false →
      disambiguateNameAddress (some n) none = (none, none)) ∧
    (∀ a : String, a ≠ "" → is_likely_customer_name a = true →
      disambiguateNameAddress none (some a) = (some a, none)) := by
  constructor
  · intro n hn haddr hname
    unfold disambiguateNameAddress
    simp [optTruthy, hn, haddr, hname]
  · intro a ha hname
    unfold disambiguateNameAddress
    simp [optTruthy, ha, hname]

/-- Claim C4, witness for the amended theorem at the claim's own input and at
a name-like address value. -/
theorem C4_witness :
    ("P.O. Box 455, Dar es Salaam" ≠ "" ∧
      is_likely_address "P.O. Box 455, Dar es Salaam" = true ∧
      is_likely_customer_name "P.O. Box 455, Dar es Salaam" = false ∧
      disambiguateNameAddress (some "P.O. Box 455, Dar es Salaam") none =
        (none, none)) ∧
    ("Acme Ltd" ≠ "" ∧ is_likely_customer_name "Acme Ltd" = true ∧
      disambiguateNameAddress none (some "Acme Ltd") = (some "Acme Ltd", none)) :=
  ⟨⟨by decide, by decide, by decide,
      C4_amended_theorem.1 "P.O. Box 455, Dar es Salaam" (by decide) (by decide)
        (by decide)⟩,
    ⟨by decide, by decide,
      C4_amended_theorem.2 "Acme Ltd" (by decide) (by decide)⟩⟩

/-! ## Claim C9 — extract_field values are trimmed, empty captures skipped -/

/-- Denotation of a database rule whose regex is `(\s)` with group 1
(`re.search(r'(\s)', 'a b')` matches at the space and captures `' '`),
recorded at the text used in the closed theorems below. -/
def wsRule : Rule :=
  { name := "whitespace capture", priority := 5,
    search := fun t => if t = "a b" then .matched (some " ") else .noMatch }

/-- Denotation of a database rule whose regex is `(x?)` with group 1
(`re.search(r'(x?)', 'a b')` matches the empty string at position 0 and
captures `''`), recorded at the text used in the closed theorems below. -/
def emptyCaptureRule : Rule :=
  { name := "empty capture", priority := 1,
    search := fun t => if t = "a b" then .matched (some "") else .noMatch }

/-- Claim C9, counterexample.  The claim asserts that `extract_field` never
returns an empty string, a whitespace-only capture being treated as absent.
With the rule `(\s)` (any rule whose capture is whitespace-only — the default
`attended_by` pattern behaves identically on `"Attended by:  "`), the capture
`' '` is truthy in Python, so `extract_field` returns `' '.strip() = ''`:
a present, empty value. -/
theorem C9_counterexample :
    extractFieldRules [wsRule] "a b" = some "" ∧
      ¬(extractFieldRules [wsRule] "a b" = none ∨
        ∀ s, extractFieldRules [wsRule] "a b" = some s → s ≠ "") := by
  refine ⟨by decide, ?_⟩
  rintro (h | h)
  · cases h.symm.trans (by decide : extractFieldRules [wsRule] "a b" = some "")
  · exact h "" (by decide) rfl

/-- Claim C9, amended.  For every text, field type, and rule set, the value
returned by `extract_field` is either absent or the Python-stripped capture
of some rule whose capture was non-empty (hence the value equals its own
strip); a rule capture that is the empty string is skipped as absent, but a
capture consisting only of whitespace is truthy and is returned as the empty
string after trimming. -/
theorem C9_amended_theorem :
    (∀ (rules : List Rule) (text : String),
      extractFieldRules rules text = none ∨
        ∃ r ∈ rules, ∃ c, r.search text = .matched (some c) ∧ c ≠ "" ∧
          extractFieldRules rules text = some (pyStrip c)) ∧
    (∀ (r : Rule) (rules : List Rule) (text : String),
      r.search text = .matched (some "") →
        extractFieldRules (r :: rules) text = extractFieldRules rules text) := by
  constructor
  · intro rules text
    induction rules with
    | nil => exact Or.inl rfl
    | cons r rs ih =>
      cases hr : ruleHit r text with
      | some w =>
        obtain ⟨c, hc, hc0, hv⟩ := (ruleHit_eq_some_iff r text w).mp hr
        refine Or.inr ⟨r, List.mem_cons_self r rs, c, hc, hc0, ?_⟩
        rw [extractFieldRules_cons_hit hr, hv]
      | none =>
        rw [extractFieldRules_cons_miss hr]
        rcases ih with h | ⟨r2, hr2, c, hc, hc0, hv⟩
        · exact Or.inl h
        · exact Or.inr ⟨r2, List.mem_cons_of_mem r hr2, c, hc, hc0, hv⟩
  · intro r rules text h
    apply extractFieldRules_cons_miss
    rw [ruleHit_eq_none_iff]
    intro c hc
    rw [h] at hc
    injection hc with h1
    exact (Option.some_injective _ h1).symm

/-- Claim C9, witness: the empty-capture rule `(x?)` is skipped, so the rule
list behaves as if it were absent. -/
theorem C9_witness :
    emptyCaptureRule.search "a b" = .matched (some "") ∧
      extractFieldRules [emptyCaptureRule, wsRule] "a b" =
        extractFieldRules [wsRule] "a b" :=
  ⟨by decide, C9_amended_theorem.2 emptyCaptureRule [wsRule] "a b" (by decide)⟩

/-! ## Claim C3 — rule priority order and first-hit semantics -/

/-- Claim C3.  The ORM delivers the active pattern rows ordered by ascending
priority (`order_by('priority')`); the loading loop preserves that order per
field type, so each field's rule list is tried lowest-priority-number first;
and `extract_field` returns the trimmed capture of the first rule in that
order whose match produces a non-empty capture at its configured group index
— every earlier rule produced no match, a failed evaluation, or an empty or
absent capture, so a later, more general rule never overwrites an earlier
rule's value within the same pass. -/
theorem C3_claim (rows : List DbRow) (ft text : String)
    (hsorted : rows.Pairwise (fun a b => a.priority ≤ b.priority)) :
    (groupPatterns rows ft).Pairwise (fun a b => a.priority ≤ b.priority) ∧
    ∀ v, extractFieldRules (groupPatterns rows ft) text = some v ↔
      ∃ i : Fin (groupPatterns rows ft).length,
        (∃ c, ((groupPatterns rows ft).get i).search text = .matched (some c) ∧
          c ≠ "" ∧ v = pyStrip c) ∧
        ∀ j : Fin (groupPatterns rows ft).length, (j : Nat) < (i : Nat) →
          ∀ c, ((groupPatterns rows ft).get j).search text = .matched (some c) →
            c = "" := by
  constructor
  · unfold groupPatterns
    rw [List.pairwise_map]
    exact (hsorted.filter _).imp (fun h => h)
  · intro v
    rw [extractFieldRules_char]
    constructor
    · rintro ⟨i, hi, hlt⟩
      exact ⟨i, (ruleHit_eq_some_iff _ text v).mp hi,
        fun j hj => (ruleHit_eq_none_iff _ text).mp (hlt j hj)⟩
    · rintro ⟨i, hi, hlt⟩
      exact ⟨i, (ruleHit_eq_some_iff _ text v).mpr hi,
        fun j hj => (ruleHit_eq_none_iff _ text).mpr (hlt j hj)⟩

/-- Denotation of a never-matching database rule (a pattern such as
`(?!x)x` matches no text at all), used by the closed theorems below. -/
def neverSearch : String → RuleOutcome := fun _ => .noMatch

/-- Two plate rows as the ORM would deliver them, ordered by priority: a
specific labelled rule (priority 5, no match on the witness text) and a
general rule (priority 10) whose regex captures `"T 123 "` on the witness
text `"plate T 123 x"`; the capture is returned trimmed. -/
def plateRows : List DbRow :=
  [{ name := "labelled plate", field_type := "plate_number", priority := 5,
     search := neverSearch },
   { name := "general plate", field_type := "plate_number", priority := 10,
     search := fun t =>
       if t = "plate T 123 x" then .matched (some "T 123 ") else .noMatch }]

/-- Claim C3, witness: the sorted-rows hypothesis holds for `plateRows`, the
loaded `plate_number` list is priority-sorted, and the first-hit
characterization applies; in particular the second rule's trimmed capture is
returned. -/
theorem C3_witness :
    (plateRows.Pairwise (fun a b => a.priority ≤ b.priority)) ∧
    ((groupPatterns plateRows "plate_number").Pairwise
      (fun a b => a.priority ≤ b.priority) ∧
     ∀ v, extractFieldRules (groupPatterns plateRows "plate_number")
          "plate T 123 x" = some v ↔
        ∃ i : Fin (groupPatterns plateRows "plate_number").length,
          (∃ c, ((groupPatterns plateRows "plate_number").get i).search
              "plate T 123 x" = .matched (some c) ∧ c ≠ "" ∧ v = pyStrip c) ∧
          ∀ j : Fin (groupPatterns plateRows "plate_number").length,
            (j : Nat) < (i : Nat) →
            ∀ c, ((groupPatterns plateRows "plate_number").get j).search
                "plate T 123 x" = .matched (some c) → c = "") ∧
    extractFieldRules (groupPatterns plateRows "plate_number") "plate T 123 x" =
      some "T 123" :=
  ⟨by decide, C3_claim plateRows "plate_number" "plate T 123 x" (by decide),
    by decide⟩

/-! ## Claim C8 — service template matching -/

theorem matchAux_cons (d : String) (p : String × ServiceTemplate)
    (rest : List (String × ServiceTemplate)) (best : Option (String × Int))
    (c : Nat) :
    matchAux d (p :: rest) best c =
      if scoreTemplate d p.2 > c then
        matchAux d rest (some (p.1, p.2.minutes)) (scoreTemplate d p.2)
      else matchAux d rest best c := rfl

/-- When no remaining template beats the running best count, the fold keeps
the running best. -/
theorem matchAux_stable (d : String) (ts : List (String × ServiceTemplate))
    (best : Option (String × Int)) (c : Nat)
    (h : ∀ p ∈ ts, scoreTemplate d p.2 ≤ c) :
    matchAux d ts best c = best := by
  induction ts generalizing best c with
  | nil => rfl
  | cons t rest ih =>
    have ht := h t (List.mem_cons_self t rest)
    rw [matchAux_cons, if_neg (by omega)]
    exact ih best c (fun p hp => h p (List.mem_cons_of_mem t hp))

/-- The fold selects the first index attaining the maximum score, provided
that score beats the running count. -/
theorem matchAux_first_argmax (d : String) (ts : List (String × ServiceTemplate)) :
    ∀ (i : Fin ts.length) (best : Option (String × Int)) (c : Nat),
      c < scoreTemplate d (ts.get i).2 →
      (∀ j : Fin ts.length, (j : Nat) < (i : Nat) →
        scoreTemplate d (ts.get j).2 < scoreTemplate d (ts.get i).2) →
      (∀ j : Fin ts.length,
        scoreTemplate d (ts.get j).2 ≤ scoreTemplate d (ts.get i).2) →
      matchAux d ts best c = some ((ts.get i).1, (ts.get i).2.minutes) := by
  induction ts with
  | nil => intro i; exact i.elim0
  | cons t rest ih =>
    rintro ⟨i, hilen⟩ best c hc hlt hle
    rw [matchAux_cons]
    match i, hilen with
    | 0, h0 =>
      have hscore : scoreTemplate d t.2 > c := hc
      rw [if_pos hscore]
      apply matchAux_stable
      intro p hp
      obtain ⟨j, hj⟩ := List.mem_iff_get.mp hp
      have hj2 := hle ⟨j.val + 1, by simp⟩
      rw [← hj]
      exact hj2
    | k + 1, hk =>
      have hlen : (t :: rest).length = rest.length + 1 := rfl
      have hk' : k < rest.length := by omega
      have hgetk : ((t :: rest).get ⟨k + 1, hk⟩) = rest.get ⟨k, hk'⟩ := rfl
      have h0 : scoreTemplate d t.2 < scoreTemplate d (rest.get ⟨k, hk'⟩).2 := by
        have := hlt ⟨0, by omega⟩ (by simp)
        rw [hgetk] at this
        exact this
      have hlt' : ∀ j : Fin rest.length, (j : Nat) < k →
          scoreTemplate d (rest.get j).2 < scoreTemplate d (rest.get ⟨k, hk'⟩).2 := by
        rintro ⟨j, hj⟩ hjk
        have := hlt ⟨j + 1, by omega⟩ (by simpa using Nat.succ_lt_succ hjk)
        rw [hgetk] at this
        exact this
      have hle' : ∀ j : Fin rest.length,
          scoreTemplate d (rest.get j).2 ≤ scoreTemplate d (rest.get ⟨k, hk'⟩).2 := by
        rintro ⟨j, hj⟩
        have := hle ⟨j + 1, by omega⟩
        rw [hgetk] at this
        exact this
      rw [hgetk] at hc
      by_cases hgt : scoreTemplate d t.2 > c
      · rw [if_pos hgt]
        exact ih ⟨k, hk'⟩ _ _ h0 hlt' hle'
      · rw [if_neg hgt]
        exact ih ⟨k, hk'⟩ best c hc hlt' hle'

/-- Claim C8.  `match_service_template` lower-cases the description and
counts, for each template, how many of its keywords occur as substrings; an
empty description or an all-zero score yields no match; otherwise the result
is the `(service_name, estimated_minutes)` pair of the first template
attaining the strictly highest count (so ties keep the first-seen template). -/
theorem C8_claim (tmpls : List (String × ServiceTemplate)) (d : String) :
    (matchServiceTemplate tmpls "" = none) ∧
    ((∀ p ∈ tmpls, scoreTemplate (lowerStr d) p.2 = 0) →
      matchServiceTemplate tmpls d = none) ∧
    (d ≠ "" → ∀ i : Fin tmpls.length,
      0 < scoreTemplate (lowerStr d) (tmpls.get i).2 →
      (∀ j : Fin tmpls.length, (j : Nat) < (i : Nat) →
        scoreTemplate (lowerStr d) (tmpls.get j).2 <
          scoreTemplate (lowerStr d) (tmpls.get i).2) →
      (∀ j : Fin tmpls.length,
        scoreTemplate (lowerStr d) (tmpls.get j).2 ≤
          scoreTemplate (lowerStr d) (tmpls.get i).2) →
      matchServiceTemplate tmpls d =
        some ((tmpls.get i).1, (tmpls.get i).2.minutes)) := by
  refine ⟨rfl, ?_, ?_⟩
  · intro h
    unfold matchServiceTemplate
    by_cases hd : d = ""
    · rw [if_pos hd]
    · rw [if_neg hd]
      exact matchAux_stable _ _ _ _ (fun p hp => by rw [h p hp])
  · intro hd i hpos hlt hle
    unfold matchServiceTemplate
    rw [if_neg hd]
    exact matchAux_first_argmax (lowerStr d) tmpls i none 0 hpos hlt hle

/-- Two concrete loaded service templates in first-seen order. -/
def oilTemplate : ServiceTemplate :=
  { keywords := ["oil", "filter"], minutes := 30, service_type := "maintenance" }

/-- A second concrete template for the witness. -/
def tyreTemplate : ServiceTemplate :=
  { keywords := ["tyre", "puncture"], minutes := 45, service_type := "repair" }

/-- The witness template map. -/
def witnessTemplates : List (String × ServiceTemplate) :=
  [("Oil Change", oilTemplate), ("Tyre Repair", tyreTemplate)]

/-- Claim C8, witness: on `"Engine OIL and filter change"` the first template
scores 2, the second 0, and the matcher returns the first template's pair. -/
theorem C8_witness :
    ((∀ p ∈ witnessTemplates,
        scoreTemplate (lowerStr "no keywords here") p.2 = 0) ∧
      matchServiceTemplate witnessTemplates "no keywords here" = none) ∧
    ("Engine OIL and filter change" ≠ "" ∧
      matchServiceTemplate witnessTemplates "Engine OIL and filter change" =
        some ("Oil Change", 30)) :=
  ⟨⟨by decide, (C8_claim witnessTemplates "no keywords here").2.1 (by decide)⟩,
    ⟨by decide,
      (C8_claim witnessTemplates "Engine OIL and filter change").2.2 (by decide)
        ⟨0, by decide⟩ (by decide)
        (by decide) (by decide)⟩⟩

/-! ## Claim C5 — monetary normalization -/

theorem digitsFoldl_shift (b : List Char) (x : Nat) :
    b.foldl (fun a c => a * 10 + (c.toNat - 48)) x =
      x * 10 ^ b.length + digitsToNat b := by
  induction b generalizing x with
  | nil => simp [digitsToNat]
  | cons c cs ih =>
    have h1 := ih (x * 10 + (c.toNat - 48))
    have h2 := ih (c.toNat - 48)
    simp only [List.foldl_cons, List.length_cons]
    rw [h1]
    have : digitsToNat (c :: cs) = (c.toNat - 48) * 10 ^ cs.length + digitsToNat cs := by
      unfold digitsToNat
      simp only [List.foldl_cons]
      simpa using h2
    rw [this]
    ring

/-- Positional value of concatenated digit strings. -/
theorem digitsToNat_append (a b : List Char) :
    digitsToNat (a ++ b) = digitsToNat a * 10 ^ b.length + digitsToNat b := by
  unfold digitsToNat
  rw [List.foldl_append]
  exact digitsFoldl_shift b _

theorem splitCharAux_no_sep (sep : Char) (l acc : List Char)
    (h : ∀ c ∈ l, c ≠ sep) :
    splitCharAux sep l acc = [String.mk (acc.reverse ++ l)] := by
  induction l generalizing acc with
  | nil => simp [splitCharAux]
  | cons x xs ih =>
    have hx := h x (List.mem_cons_self x xs)
    unfold splitCharAux
    rw [if_neg hx, ih (x :: acc) (fun c hc => h c (List.mem_cons_of_mem x hc))]
    simp

theorem splitCharAux_one_sep (sep : Char) (a b acc : List Char)
    (ha : ∀ c ∈ a, c ≠ sep) (hb : ∀ c ∈ b, c ≠ sep) :
    splitCharAux sep (a ++ sep :: b) acc =
      [String.mk (acc.reverse ++ a), String.mk b] := by
  induction a generalizing acc with
  | nil =>
    rw [List.nil_append]
    unfold splitCharAux
    rw [if_pos rfl, splitCharAux_no_sep sep b [] hb]
    simp
  | cons x xs ih =>
    have hx := ha x (List.mem_cons_self x xs)
    rw [List.cons_append]
    unfold splitCharAux
    rw [if_neg hx, ih (x :: acc) (fun c hc => ha c (List.mem_cons_of_mem x hc))]
    simp

/-- A digit character is not a sign or separator character. -/
theorem digit_ne (c : Char) (hc : c.isDigit = true) :
    c ≠ '-' ∧ c ≠ '+' ∧ c ≠ '.' ∧ c ≠ ',' := by
  refine ⟨?_, ?_, ?_, ?_⟩ <;> rintro rfl <;> simp [Char.isDigit] at hc

/-- Parsing a pure digit string yields the non-negative integer it denotes. -/
theorem pyDecimalOfString_digits (a : List Char)
    (ha : ∀ c ∈ a, c.isDigit = true) (hne : a ≠ []) :
    pyDecimalOfString (String.mk a) = some ⟨false, digitsToNat a, 0⟩ := by
  unfold pyDecimalOfString
  have hnodot : ∀ c ∈ a, c ≠ '.' := fun c hc => (digit_ne c (ha c hc)).2.2.1
  rcases a with _ | ⟨c, r⟩
  · exact absurd rfl hne
  · have hc := digit_ne c (ha c (List.mem_cons_self c r))
    simp only [if_neg hc.1, if_neg hc.2.1]
    rw [splitCharAux_no_sep '.' (c :: r) [] hnodot]
    simp only [List.reverse_nil, List.nil_append]
    have hall : (String.mk (c :: r)).data.all Char.isDigit = true := by
      simpa [List.all_eq_true] using ha
    simp [hall]

/-- Parsing a digit string with one interior decimal point yields the exact
coefficient/scale pair, whose rational value is the denoted fixed-point
number. -/
theorem pyDecimalOfString_dotted (a b : List Char)
    (ha : ∀ c ∈ a, c.isDigit = true) (hb : ∀ c ∈ b, c.isDigit = true)
    (hne : a ++ b ≠ []) :
    pyDecimalOfString (String.mk (a ++ '.' :: b)) =
        some ⟨false, digitsToNat (a ++ b), b.length⟩ ∧
      denoteDec ⟨false, digitsToNat (a ++ b), b.length⟩ =
        (digitsToNat a : ℚ) + (digitsToNat b : ℚ) / (10 : ℚ) ^ b.length := by
  constructor
  · unfold pyDecimalOfString
    have hadot : ∀ c ∈ a, c ≠ '.' := fun c hc => (digit_ne c (ha c hc)).2.2.1
    have hbdot : ∀ c ∈ b, c ≠ '.' := fun c hc => (digit_ne c (hb c hc)).2.2.1
    have hsplit := splitCharAux_one_sep '.' a b [] hadot hbdot
    rcases a with _ | ⟨c, r⟩
    · simp only [List.nil_append]
      have hdot : ('.' : Char) ≠ '-' ∧ ('.' : Char) ≠ '+' := by decide
      simp only [if_neg hdot.1, if_neg hdot.2]
      rw [show ('.' :: b : List Char) = [] ++ '.' :: b from rfl,
        splitCharAux_one_sep '.' [] b [] (by simp) hbdot]
      have hallb : (String.mk b).data.all Char.isDigit = true := by
        simpa [List.all_eq_true] using hb
      have hbne : b ≠ [] := by simpa using hne
      simp [hallb, hbne]
    · have hc := digit_ne c (ha c (List.mem_cons_self c r))
      simp only [List.cons_append, if_neg hc.1, if_neg hc.2.1]
      rw [show (c :: (r ++ '.' :: b) : List Char) = (c :: r) ++ '.' :: b from rfl,
        splitCharAux_one_sep '.' (c :: r) b [] hadot hbdot]
      have halla : (String.mk (c :: r)).data.all Char.isDigit = true := by
        simpa [List.all_eq_true] using ha
      have hallb : (String.mk b).data.all Char.isDigit = true := by
        simpa [List.all_eq_true] using hb
      simp [halla, hallb]
  · unfold denoteDec
    have h10 : ((10 : ℚ) ^ b.length) ≠ 0 := by positivity
    rw [digitsToNat_append]
    push_cast
    field_simp

/-- A parse of a string containing no sign characters is never negative. -/
theorem pyDecimalOfString_no_sign (l : List Char)
    (h : ∀ c ∈ l, c ≠ '-' ∧ c ≠ '+') (d : Dec)
    (hd : pyDecimalOfString (String.mk l) = some d) : d.neg = false := by
  unfold pyDecimalOfString at hd
  rcases l with _ | ⟨c, r⟩
  · simp [splitCharAux] at hd
  · have hc := h c (List.mem_cons_self c r)
    simp only [if_neg hc.1, if_neg hc.2] at hd
    split at hd
    · split_ifs at hd with hcond
      rw [← Option.some_injective _ hd]
    · split_ifs at hd with hcond
      rw [← Option.some_injective _ hd]
    · cases hd

/-- The `extract_amount` cleaning filter keeps only digits and dots. -/
theorem extractAmountClean_no_sign (s : String) :
    ∀ c ∈ (extractAmountClean s).data, c ≠ '-' ∧ c ≠ '+' := by
  intro c hc
  unfold extractAmountClean at hc
  simp only [List.mem_filter] at hc
  rcases hc with ⟨-, hkeep⟩
  rcases Bool.or_eq_true_iff.mp hkeep with hdig | hdot
  · exact ⟨(digit_ne c hdig).1, (digit_ne c hdig).2.1⟩
  · constructor <;> · rintro rfl; cases hdot

/-- A string with no kept character normalizes to absent in `to_decimal`. -/
theorem to_decimal_malformed (s : String)
    (h : s.data.filter keepToDecimalChar = []) : to_decimal (some s) = none := by
  have hbody : to_decimal (some s) =
      (if s = "" then none
       else
         let cleaned := pyStrip (String.mk (s.data.filter keepToDecimalChar))
         if cleaned ≠ "" && cleaned ≠ "." && cleaned ≠ "," && cleaned ≠ "-" then
           pyDecimalOfString (removeChar ',' cleaned)
         else none) := rfl
  by_cases hs : s = ""
  · rw [hbody, if_pos hs]
  · rw [hbody, if_neg hs, h]
    decide

/-- Claim C5, amended.  Monetary normalization never raises and degrades to
absent on malformed input, and parsing is exact — but the two normalizers
keep different character sets: `extract_amount` strips everything except
digits and decimal points, including any sign, while `to_decimal` keeps
digits, decimal points, commas and sign, removes the commas (thousands
separators) before parsing, and preserves the sign.  Concretely:
a digit string (with an optional interior decimal point) parses to the
exact rational it denotes; a value surviving `extract_amount`'s filter can
never be negative; a string with none of `to_decimal`'s kept characters
yields absent; and comma removal makes `to_decimal "1,234.50"` equal
`to_decimal "1234.50"` exactly. -/
theorem C5_amended_theorem :
    (∀ a b : List Char, (∀ c ∈ a, c.isDigit = true) → (∀ c ∈ b, c.isDigit = true) →
      a ++ b ≠ [] →
      pyDecimalOfString (String.mk (a ++ '.' :: b)) =
          some ⟨false, digitsToNat (a ++ b), b.length⟩ ∧
        denoteDec ⟨false, digitsToNat (a ++ b), b.length⟩ =
          (digitsToNat a : ℚ) + (digitsToNat b : ℚ) / (10 : ℚ) ^ b.length) ∧
    (∀ a : List Char, (∀ c ∈ a, c.isDigit = true) → a ≠ [] →
      pyDecimalOfString (String.mk a) = some ⟨false, digitsToNat a, 0⟩) ∧
    (∀ s : String, ∀ d : Dec, extractAmountNormalize s = some d → d.neg = false) ∧
    (∀ s : String, s.data.filter keepToDecimalChar = [] →
      to_decimal (some s) = none) ∧
    (to_decimal (some "1,234.50") = some ⟨false, 123450, 2⟩ ∧
      to_decimal (some "1234.50") = some ⟨false, 123450, 2⟩ ∧
      denoteDec ⟨false, 123450, 2⟩ = (123450 : ℚ) / 100) := by
  refine ⟨pyDecimalOfString_dotted, pyDecimalOfString_digits, ?_, to_decimal_malformed,
    by decide, by decide, ?_⟩
  · intro s d hd
    exact pyDecimalOfString_no_sign (extractAmountClean s).data
      (extractAmountClean_no_sign s) d hd
  · unfold denoteDec
    norm_num

/-- Denotation of a database rule for the `amount` field whose regex is
`Amount:\s*(-?\d+)` with group 1 (`re.search` on `"Amount: -5"` captures
`"-5"`), recorded at the text used below. -/
def minusAmountRule : Rule :=
  { name := "signed amount", priority := 5,
    search := fun t => if t = "Amount: -5" then .matched (some "-5") else .noMatch }

/-- Extractor state holding only the signed-amount rule. -/
def minusAmountState : ExtractorState :=
  { patterns := fun ft => if ft = "amount" then [minusAmountRule] else [],
    serviceTemplates := [], loaded := true }

/-- The empty default-pattern table, for closed runs in which every consulted
field type has database rules. -/
def noDefaults : FieldPatterns := fun _ => []

/-- Claim C5, counterexample.  The claim says the normalization of
`extract_amount` keeps the sign; in the code `re.sub(r'[^\d.]', '', ...)`
removes it, so the captured string `"-5"` normalizes to `5`, not to the `-5`
the spec's description (modelled by `specMonetaryNormalize`) produces. -/
theorem C5_counterexample :
    extractAmountNormalize "-5" = some ⟨false, 5, 0⟩ ∧
      specMonetaryNormalize "-5" = some ⟨true, 5, 0⟩ ∧
      (⟨false, 5, 0⟩ : Dec) ≠ ⟨true, 5, 0⟩ ∧
      denoteDec ⟨false, 5, 0⟩ = 5 ∧ denoteDec ⟨true, 5, 0⟩ = -5 ∧
      extractAmount minusAmountState noDefaults "Amount: -5" =
        some ⟨false, 5, 0⟩ := by
  refine ⟨by decide, by decide, by decide, ?_, ?_, by decide⟩ <;>
    · unfold denoteDec; norm_num

/-- Claim C5, witness for the amended theorem: `"1.5"` parses exactly to
`3/2`, a digits-only string parses to its integer, the sign is dropped on
`"-5"`, and `"abc"` (no kept characters) yields absent. -/
theorem C5_witness :
    ((∀ c ∈ ['1'], c.isDigit = true) ∧ (∀ c ∈ ['5'], c.isDigit = true) ∧
      (['1'] ++ ['5'] ≠ []) ∧
      pyDecimalOfString (String.mk (['1'] ++ '.' :: ['5'])) =
          some ⟨false, digitsToNat (['1'] ++ ['5']), 1⟩ ∧
        denoteDec ⟨false, digitsToNat (['1'] ++ ['5']), 1⟩ =
          (digitsToNat ['1'] : ℚ) + (digitsToNat ['5'] : ℚ) / (10 : ℚ) ^ (1 : ℕ)) ∧
    (extractAmountNormalize "-5" = some ⟨false, 5, 0⟩ ∧
      Dec.neg ⟨false, 5, 0⟩ = false) ∧
    ("abc".data.filter keepToDecimalChar = [] ∧ to_decimal (some "abc") = none) := by
  refine ⟨⟨by decide, by decide, by decide, ?_⟩, ⟨by decide, ?_⟩, by decide, ?_⟩
  · have h := C5_amended_theorem.1 ['1'] ['5'] (by decide) (by decide) (by decide)
    simpa using h
  · exact C5_amended_theorem.2.2.1 "-5" ⟨false, 5, 0⟩ (by decide)
  · exact C5_amended_theorem.2.2.2.1 "abc" (by decide)

/-! ## Claim C6 — merging a result with itself -/

theorem recGet_cons_pos {p : String × PyVal} {rest : Record} {k : String}
    (h : p.1 = k) : recGet (p :: rest) k = some p.2 := by
  unfold recGet
  rw [List.find?_cons_of_pos _ (by simpa using h)]
  rfl

theorem recGet_cons_neg {p : String × PyVal} {rest : Record} {k : String}
    (h : p.1 ≠ k) : recGet (p :: rest) k = recGet rest k := by
  unfold recGet
  rw [List.find?_cons_of_neg _ (by simpa using h)]

theorem recGet_some_any {m : Record} {k : String} {v : PyVal}
    (h : recGet m k = some v) : m.any (fun p => p.1 = k) = true := by
  induction m with
  | nil => cases h
  | cons p rest ih =>
    by_cases hp : p.1 = k
    · simp [List.any_cons, hp]
    · rw [recGet_cons_neg hp] at h
      simp only [List.any_cons, Bool.or_eq_true]
      exact Or.inr (ih h)

theorem mem_recGet {m : Record} {k : String} {v : PyVal}
    (hnodup : (m.map Prod.fst).Nodup) (hmem : (k, v) ∈ m) :
    recGet m k = some v := by
  induction m with
  | nil => cases hmem
  | cons p rest ih =>
    rw [List.map_cons, List.nodup_cons] at hnodup
    rcases List.mem_cons.mp hmem with heq | hmem2
    · rw [← heq, recGet_cons_pos rfl]
    · have hpk : p.1 ≠ k := by
        intro hpk
        exact hnodup.1 (hpk ▸ List.mem_map_of_mem Prod.fst hmem2)
      rw [recGet_cons_neg hpk]
      exact ih hnodup.2 hmem2

theorem mapSet_id {m : Record} {k : String} {v : PyVal}
    (hnodup : (m.map Prod.fst).Nodup) (h : recGet m k = some v) :
    m.map (fun p => if p.1 = k then (k, v) else p) = m := by
  induction m with
  | nil => rfl
  | cons p rest ih =>
    rw [List.map_cons, List.nodup_cons] at hnodup
    by_cases hp : p.1 = k
    · rw [recGet_cons_pos hp] at h
      have hv : v = p.2 := by injection h with h1; exact h1.symm
      rw [List.map_cons, if_pos hp]
      have hrest : ∀ q ∈ rest, (if q.1 = k then (k, v) else q) = id q := by
        intro q hq
        rw [if_neg]
        · rfl
        · intro hqk
          exact hnodup.1 (hp ▸ hqk ▸ List.mem_map_of_mem Prod.fst hq)
      rw [List.map_congr_left hrest, List.map_id, hv, ← hp, Prod.mk.eta]
    · rw [recGet_cons_neg hp] at h
      rw [List.map_cons, if_neg hp, ih hnodup.2 h]

theorem recSet_same {m : Record} {k : String} {v : PyVal}
    (hnodup : (m.map Prod.fst).Nodup) (h : recGet m k = some v) :
    recSet m k v = m := by
  unfold recSet
  rw [if_pos (recGet_some_any h)]
  exact mapSet_id hnodup h

theorem pyDedupAux_all_seen (seen : List PyElem) (l : List PyElem)
    (hseen : ∀ e ∈ l, e ∈ seen) (hh : ∀ e ∈ l, elemUnhashable e = false) :
    pyDedupAux seen l = .ok [] := by
  induction l with
  | nil => rfl
  | cons e es ih =>
    unfold pyDedupAux
    rw [if_neg (by simp [hh e (List.mem_cons_self e es)]),
      if_pos (hseen e (List.mem_cons_self e es))]
    exact ih (fun x hx => hseen x (List.mem_cons_of_mem e hx))
      (fun x hx => hh x (List.mem_cons_of_mem e hx))

theorem pyDedupAux_fresh (l : List PyElem) :
    ∀ (m seen : List PyElem), l.Nodup → (∀ e ∈ l, e ∉ seen) →
      (∀ e ∈ l, elemUnhashable e = false) →
      (∀ e ∈ m, elemUnhashable e = false) →
      (∀ e ∈ m, e ∈ l ∨ e ∈ seen) →
      pyDedupAux seen (l ++ m) = .ok l := by
  induction l with
  | nil =>
    intro m seen _ _ _ hmh hmseen
    rw [List.nil_append]
    exact pyDedupAux_all_seen seen m
      (fun e he => (hmseen e he).resolve_left (fun h => (List.not_mem_nil e) h)) hmh
  | cons e es ih =>
    intro m seen hnodup hfresh hh hmh hmseen
    rw [List.cons_append]
    unfold pyDedupAux
    rw [if_neg (by simp [hh e (List.mem_cons_self e es)]),
      if_neg (hfresh e (List.mem_cons_self e es))]
    rw [List.nodup_cons] at hnodup
    have hes := ih m (e :: seen) hnodup.2
      (fun x hx => by
        simp only [List.mem_cons, not_or]
        exact ⟨fun hxe => hnodup.1 (hxe ▸ hx), hfresh x (List.mem_cons_of_mem e hx)⟩)
      (fun x hx => hh x (List.mem_cons_of_mem e hx)) hmh
      (fun x hx => by
        rcases hmseen x hx with hxl | hxs
        · rcases List.mem_cons.mp hxl with rfl | hxes
          · exact Or.inr (List.mem_cons_self x seen)
          · exact Or.inl hxes
        · exact Or.inr (List.mem_cons_of_mem e hxs))
    rw [hes]
    rfl

/-- Deduplicating the concatenation of a duplicate-free hashable list with
itself gives the list back. -/
theorem pyDedup_self (l : List PyElem) (hnodup : l.Nodup)
    (hh : ∀ e ∈ l, elemUnhashable e = false) :
    pyDedup (l ++ l) = .ok l :=
  pyDedupAux_fresh l l [] hnodup (by simp) hh hh (fun e he => Or.inl he)

/-- Cleanliness of one record value for the self-merge: a list value must be
duplicate-free with hashable (string) elements; non-list values are
unconstrained. -/
def listCleanB : PyVal → Bool
  | .pyList l => decide l.Nodup && l.all (fun e => !elemUnhashable e)
  | _ => true

theorem mergeStep_eq (m : Record) (k : String) (v : PyVal) :
    mergeStep m (k, v) =
      if !truthyAt m k && pyTruthy v then .ok (recSet m k v)
      else
        match v, recGet m k with
        | .pyList lv, some (.pyList lm) =>
          (pyDedup (lm ++ lv)).map (fun l => recSet m k (.pyList l))
        | _, _ => .ok m := rfl

theorem mergeStep_self {r : Record} {k : String} {v : PyVal}
    (hnodup : (r.map Prod.fst).Nodup) (hmem : (k, v) ∈ r)
    (hclean : listCleanB v = true) : mergeStep r (k, v) = .ok r := by
  have hget : recGet r k = some v := mem_recGet hnodup hmem
  have htr : truthyAt r k = pyTruthy v := by
    unfold truthyAt
    rw [hget]
    rfl
  rw [mergeStep_eq, if_neg (by rw [htr]; cases pyTruthy v <;> decide)]
  rcases v with _ | s | n | d | l | it | it
  · rfl
  · rfl
  · rfl
  · rfl
  · rw [hget]
    simp only [listCleanB, Bool.and_eq_true, decide_eq_true_eq,
      List.all_eq_true] at hclean
    show (pyDedup (l ++ l)).map (fun l2 => recSet r k (.pyList l2)) = .ok r
    rw [pyDedup_self l hclean.1 (fun e he => by simpa using hclean.2 e he)]
    show Except.ok (recSet r k (.pyList l)) = Except.ok r
    rw [recSet_same hnodup hget]
  · rfl
  · rfl

theorem foldlM_mergeStep_self {r : Record}
    (hnodup : (r.map Prod.fst).Nodup)
    (hclean : ∀ kv ∈ r, listCleanB kv.2 = true) :
    ∀ entries : List (String × PyVal), (∀ kv ∈ entries, kv ∈ r) →
      entries.foldlM mergeStep r = .ok r := by
  intro entries
  induction entries with
  | nil => intro _; rfl
  | cons kv rest ih =>
    intro hsub
    have hkv := hsub kv (List.mem_cons_self kv rest)
    rw [List.foldlM_cons]
    have hstep : mergeStep r kv = .ok r := by
      have := mergeStep_self hnodup hkv (hclean kv hkv)
      simpa using this
    rw [hstep]
    show rest.foldlM mergeStep r = .ok r
    exact ih (fun x hx => hsub x (List.mem_cons_of_mem kv hx))

/-- Claim C6, amended.  Merging an orchestrator result with itself as the
secondary structured source is a no-op provided each list-valued field is
already duplicate-free and holds hashable (string) entries: no field is
overwritten and no list entry is duplicated.  A list field holding
duplicates, however, is rewritten to its first-occurrence deduplication, so
the merge is not a no-op on such records (see the counterexample). -/
theorem C6_amended_theorem (r : Record)
    (hnodup : (r.map Prod.fst).Nodup)
    (hclean : ∀ kv ∈ r, listCleanB kv.2 = true) :
    mergeStructured r r = .ok r :=
  foldlM_mergeStep_self hnodup hclean r (fun _ hx => hx)

/-- Merge-block oracles for texts on which none of the fixed regexes match
and the external item extractor finds nothing. -/
def trivOracles : MergeOracles :=
  { codeNoSearch := fun _ => none, referenceSearch := fun _ => none,
    plateFromRef := fun _ => none, extractItems := fun _ => .ok [],
    vatSearch := fun _ => none, netSearch := fun _ => none,
    grossSearch := fun _ => none }

/-- A decoder result whose structured data carries a duplicated
`vehicle_plates` list (the merge fills such a list into a gap verbatim,
without deduplication). -/
def c6Scan : DocScan :=
  { filename := "inv.pdf",
    extractTry := .returned
      { success := true, raw_text := "x",
        structured_data :=
          [("vehicle_plates",
            .pyList [.elemStr "T 123 ABC", .elemStr "T 123 ABC"])],
        error := none },
    rawDecode := none }

/-- The orchestrator result for `c6Scan`: the duplicated list survives into
the final record. -/
def c6Result : Record :=
  [("vehicle_plates", .pyList [.elemStr "T 123 ABC", .elemStr "T 123 ABC"]),
   ("raw_text", .pyStr "x"),
   ("plate_number", .pyStr "T 123 ABC")]

/-- `c6Result` with its list field deduplicated, as the self-merge rewrites it. -/
def c6Deduped : Record :=
  [("vehicle_plates", .pyList [.elemStr "T 123 ABC"]),
   ("raw_text", .pyStr "x"),
   ("plate_number", .pyStr "T 123 ABC")]

/-- Claim C6, counterexample.  `c6Result` is a reachable orchestrator result
(first conjunct), yet merging it with itself rewrites its duplicated
`vehicle_plates` list to the deduplication — the merge is not a no-op and
the field's value is overwritten. -/
theorem C6_counterexample :
    processInvoiceExtraction noDefaults (.error "no db") c6Scan trivOracles
        none none = .record c6Result ∧
      mergeStructured c6Result c6Result = .ok c6Deduped ∧
      c6Deduped ≠ c6Result := by
  refine ⟨by decide, by rfl, by decide⟩

/-- A record whose list fields are duplicate-free with string entries. -/
def c6CleanRecord : Record :=
  [("customer_name", .pyStr "Acme Ltd"),
   ("vehicle_plates", .pyList [.elemStr "T 123 ABC", .elemStr "T 44 XYZ"])]

/-- Claim C6, witness: on a record with duplicate-free string lists the
self-merge is the identity. -/
theorem C6_witness :
    ((c6CleanRecord.map Prod.fst).Nodup ∧
      ∀ kv ∈ c6CleanRecord, listCleanB kv.2 = true) ∧
      mergeStructured c6CleanRecord c6CleanRecord = .ok c6CleanRecord :=
  ⟨⟨by decide, by decide⟩,
    C6_amended_theorem c6CleanRecord (by decide) (by decide)⟩

/-! ## Claim C2 — present keys are never `None` (but may be empty) -/

/-- No entry of the record holds Python `None`. -/
def noneFree (m : Record) : Prop := ∀ kv ∈ m, kv.2 ≠ PyVal.pyNone

theorem except_bind_ok {α β : Type} {x : Except String α}
    {f : α → Except String β} {b : β} :
    (x >>= f) = .ok b ↔ ∃ a, x = .ok a ∧ f a = .ok b := by
  cases x with
  | error e =>
    constructor
    · intro h; cases h
    · rintro ⟨a, ha, -⟩; cases ha
  | ok a =>
    constructor
    · intro h; exact ⟨a, rfl, h⟩
    · rintro ⟨a2, ha, hf⟩
      injection ha with ha2
      rw [ha2]
      exact hf

theorem mapStr_ne_none (o : Option String) (w : PyVal)
    (h : o.map PyVal.pyStr = some w) : w ≠ PyVal.pyNone := by
  cases o with
  | none => cases h
  | some s =>
    injection h with h1
    rw [← h1]
    exact fun hw => by cases hw

theorem extractAllEntries_shape (st : ExtractorState) (defaults : FieldPatterns)
    (text : String) :
    ∀ p ∈ extractAllEntries st defaults text, ∀ w, p.2 = some w →
      w ≠ PyVal.pyNone := by
  intro p hp w hw
  unfold extractAllEntries at hp
  rcases List.mem_append.mp hp with hbase | htmpl
  · simp only [List.mem_cons, List.not_mem_nil, or_false] at hbase
    rcases hbase with rfl | rfl | rfl | rfl | rfl | rfl | rfl | rfl | rfl | rfl |
      rfl | rfl | rfl | rfl | rfl | rfl | rfl <;>
      exact mapStr_ne_none _ w hw
  · rcases htmp : (match extractField st defaults "service_description" text with
      | some d =>
        if d ≠ "" then matchServiceTemplate st.serviceTemplates d else none
      | none => none : Option (String × Int)) with - | nm
    · rw [htmp] at htmpl
      cases htmpl
    · rw [htmp] at htmpl
      simp only [List.mem_cons, List.not_mem_nil, or_false] at htmpl
      rcases htmpl with rfl | rfl
      · injection hw with h1
        rw [← h1]
        exact fun hx => by cases hx
      · injection hw with h1
        rw [← h1]
        exact fun hx => by cases hx

theorem noneFree_dropNoneEntries (l : List (String × Option PyVal))
    (h : ∀ p ∈ l, ∀ w, p.2 = some w → w ≠ PyVal.pyNone) :
    noneFree (dropNoneEntries l) := by
  intro kv hkv
  unfold dropNoneEntries at hkv
  obtain ⟨p, hp, hpe⟩ := List.mem_filterMap.mp hkv
  cases hsnd : p.2 with
  | none => rw [hsnd] at hpe; cases hpe
  | some w =>
    rw [hsnd] at hpe
    injection hpe with h1
    have hw := h p hp w hsnd
    rw [← h1]
    exact hw

/-- `extract_all` never returns a `None`-valued key. -/
theorem noneFree_extractAll (st : ExtractorState) (defaults : FieldPatterns)
    (text : String) : noneFree (extractAll st defaults text) :=
  noneFree_dropNoneEntries _ (extractAllEntries_shape st defaults text)

theorem noneFree_recSet {m : Record} {k : String} {v : PyVal}
    (hm : noneFree m) (hv : v ≠ .pyNone) : noneFree (recSet m k v) := by
  intro kv hkv
  unfold recSet at hkv
  split_ifs at hkv
  · obtain ⟨p, hp, hpe⟩ := List.mem_map.mp hkv
    by_cases hpk : p.1 = k
    · rw [if_pos hpk] at hpe
      rw [← hpe]
      exact hv
    · rw [if_neg hpk] at hpe
      rw [← hpe]
      exact hm p hp
  · rcases List.mem_append.mp hkv with h1 | h2
    · exact hm kv h1
    · rw [List.mem_singleton] at h2
      rw [h2]
      exact hv

/-- The one invariant the final record really satisfies: a `None` value can
sit only under the `plate_number` key (injected verbatim by
`merged['plate_number'] = doc_struct.get('vehicle_plates')[0]` at
extraction_utils.py line 490 when the decoder's list head is `None`, and
kept by the falsy-plate cleanup). -/
def nullOnlyAtPlate (m : Record) : Prop :=
  ∀ kv ∈ m, kv.2 = PyVal.pyNone → kv.1 = "plate_number"

theorem nullOnlyAtPlate_of_noneFree {m : Record} (hm : noneFree m) :
    nullOnlyAtPlate m :=
  fun kv hkv hnone => absurd hnone (hm kv hkv)

theorem nop_recSet {m : Record} {k : String} {v : PyVal}
    (hm : nullOnlyAtPlate m) (hv : v ≠ .pyNone) :
    nullOnlyAtPlate (recSet m k v) := by
  intro kv hkv
  unfold recSet at hkv
  split_ifs at hkv
  · obtain ⟨p, hp, hpe⟩ := List.mem_map.mp hkv
    by_cases hpk : p.1 = k
    · rw [if_pos hpk] at hpe
      rw [← hpe]
      exact fun hnone => absurd hnone hv
    · rw [if_neg hpk] at hpe
      rw [← hpe]
      exact hm p hp
  · rcases List.mem_append.mp hkv with h1 | h2
    · exact hm kv h1
    · rw [List.mem_singleton] at h2
      rw [h2]
      exact fun hnone => absurd hnone hv

theorem nop_recSet_plate {m : Record} {v : PyVal}
    (hm : nullOnlyAtPlate m) :
    nullOnlyAtPlate (recSet m "plate_number" v) := by
  intro kv hkv
  unfold recSet at hkv
  split_ifs at hkv
  · obtain ⟨p, hp, hpe⟩ := List.mem_map.mp hkv
    by_cases hpk : p.1 = "plate_number"
    · rw [if_pos hpk] at hpe
      rw [← hpe]
      exact fun _ => rfl
    · rw [if_neg hpk] at hpe
      rw [← hpe]
      exact hm p hp
  · rcases List.mem_append.mp hkv with h1 | h2
    · exact hm kv h1
    · rw [List.mem_singleton] at h2
      rw [h2]
      exact fun _ => rfl

theorem nop_recPop {m : Record} {k : String} (hm : nullOnlyAtPlate m) :
    nullOnlyAtPlate (recPop m k) := by
  intro kv hkv
  exact hm kv (List.mem_of_mem_filter hkv)

theorem mergeStep_nop {m m' : Record} {kv : String × PyVal}
    (hm : nullOnlyAtPlate m) (h : mergeStep m kv = .ok m') :
    nullOnlyAtPlate m' := by
  obtain ⟨k, v⟩ := kv
  rw [mergeStep_eq] at h
  split_ifs at h with hcond
  · have hv : v ≠ .pyNone := by
      rintro rfl
      simp [pyTruthy] at hcond
    injection h with h1
    rw [← h1]
    exact nop_recSet hm hv
  · split at h
    · rcases hd : pyDedup _ with e | l2
      · rw [hd] at h; cases h
      · rw [hd] at h
        injection h with h1
        rw [← h1]
        exact nop_recSet hm (fun hx => by cases hx)
    · injection h with h1
      rw [← h1]
      exact hm

theorem mergeStructured_nop {inv ds m : Record}
    (hinv : nullOnlyAtPlate inv) (h : mergeStructured inv ds = .ok m) :
    nullOnlyAtPlate m := by
  unfold mergeStructured at h
  induction ds generalizing inv with
  | nil =>
    injection h with h1
    rw [← h1]
    exact hinv
  | cons kv rest ih =>
    rw [List.foldlM_cons, except_bind_ok] at h
    obtain ⟨m1, hstep, hfold⟩ := h
    exact ih (mergeStep_nop hinv hstep) hfold

theorem stageCodeNo_nop {oracles : MergeOracles} {text : String}
    {m : Record} (hm : nullOnlyAtPlate m) :
    nullOnlyAtPlate (stageCodeNo oracles text m) := by
  unfold stageCodeNo
  split_ifs
  · split
    · exact nop_recSet hm (fun hx => by cases hx)
    · exact hm
  · exact hm

theorem stageReference_nop {oracles : MergeOracles} {text : String}
    {m : Record} (hm : nullOnlyAtPlate m) :
    nullOnlyAtPlate (stageReference oracles text m) := by
  unfold stageReference
  split_ifs
  · split
    · exact nop_recSet hm (fun hx => by cases hx)
    · exact hm
  · exact hm

theorem stagePlateFromRef_nop {oracles : MergeOracles} {m m' : Record}
    (hm : nullOnlyAtPlate m) (h : stagePlateFromRef oracles m = .ok m') :
    nullOnlyAtPlate m' := by
  unfold stagePlateFromRef at h
  repeat' split at h
  all_goals
    first
    | exact Except.noConfusion h
    | (injection h with h1
       rw [← h1]
       first
       | exact nop_recSet hm (fun hx => by cases hx)
       | exact hm)

theorem stageVehiclePlates_nop {docStruct m m' : Record}
    (hm : nullOnlyAtPlate m) (h : stageVehiclePlates docStruct m = .ok m') :
    nullOnlyAtPlate m' := by
  unfold stageVehiclePlates at h
  split_ifs at h
  · split at h
    · rcases hz : indexZero _ with e | el
      · rw [hz] at h; cases h
      · rw [hz] at h
        injection h with h1
        rw [← h1]
        exact nop_recSet_plate hm
    · injection h with h1
      rw [← h1]
      exact hm
  · injection h with h1
    rw [← h1]
    exact hm

theorem stageItems_nop {normalizedItems : List NormItem} {m : Record}
    (hm : nullOnlyAtPlate m) :
    nullOnlyAtPlate (stageItems normalizedItems m) := by
  unfold stageItems
  split_ifs
  · exact nop_recSet hm (fun hx => by cases hx)
  · exact hm

theorem stageNoise_nop {normalizedItems : List NormItem} {m m' : Record}
    (hm : nullOnlyAtPlate m) (h : stageNoise normalizedItems m = .ok m') :
    nullOnlyAtPlate m' := by
  unfold stageNoise at h
  rw [except_bind_ok] at h
  obtain ⟨sdesc, -, h⟩ := h
  split_ifs at h <;>
    (injection h with h1
     rw [← h1]
     first
     | exact nop_recSet (nop_recSet hm (fun hx => by cases hx))
         (fun hx => by cases hx)
     | exact hm)

theorem setTotal_nop {k : String} {res : Option String} {m : Record}
    (hm : nullOnlyAtPlate m) : nullOnlyAtPlate (setTotal k res m) := by
  unfold setTotal
  split
  · exact nop_recSet hm (fun hx => by cases hx)
  · exact hm

theorem stageTotals_nop {oracles : MergeOracles} {text : String}
    {m : Record} (hm : nullOnlyAtPlate m) :
    nullOnlyAtPlate (stageTotals oracles text m) :=
  setTotal_nop (setTotal_nop (setTotal_nop hm))

theorem stageTemplate_nop {st : ExtractorState} {m m' : Record}
    (hm : nullOnlyAtPlate m) (h : stageTemplate st m = .ok m') :
    nullOnlyAtPlate m' := by
  unfold stageTemplate at h
  repeat' split at h
  all_goals
    first
    | exact Except.noConfusion h
    | (injection h with h1
       rw [← h1]
       first
       | exact nop_recSet (nop_recSet hm (fun hx => by cases hx))
           (fun hx => by cases hx)
       | exact hm)

theorem mergeBlock_nop {st : ExtractorState} {defaults : FieldPatterns}
    {oracles : MergeOracles} {text : String} {docStruct m : Record}
    (h : mergeBlock st defaults oracles text docStruct = .ok m) :
    nullOnlyAtPlate m := by
  unfold mergeBlock at h
  rw [except_bind_ok] at h
  obtain ⟨m1, hmerge, h⟩ := h
  rw [except_bind_ok] at h
  obtain ⟨m2, hplate, h⟩ := h
  rw [except_bind_ok] at h
  obtain ⟨m3, hveh, h⟩ := h
  rw [except_bind_ok] at h
  obtain ⟨items, hitems, h⟩ := h
  rw [except_bind_ok] at h
  obtain ⟨m4, hnoise, h⟩ := h
  have h1 : nullOnlyAtPlate m1 :=
    mergeStructured_nop
      (nullOnlyAtPlate_of_noneFree (noneFree_extractAll st defaults text)) hmerge
  have h2 : nullOnlyAtPlate m2 :=
    stagePlateFromRef_nop
      (stageReference_nop (stageCodeNo_nop
        (nop_recSet h1 (fun hx => by cases hx)))) hplate
  have h3 : nullOnlyAtPlate m3 := stageVehiclePlates_nop h2 hveh
  have h4 : nullOnlyAtPlate m4 := stageNoise_nop (stageItems_nop h3) hnoise
  exact stageTemplate_nop (stageTotals_nop h4) h

theorem fallbackRecord_noneFree (st : ExtractorState) (defaults : FieldPatterns)
    (text : String) : noneFree (fallbackRecord st defaults text) :=
  noneFree_recSet (noneFree_extractAll st defaults text) (fun hx => by cases hx)

theorem plateCleanup_nop {m : Record} (hm : nullOnlyAtPlate m) :
    nullOnlyAtPlate (plateCleanup m) := by
  unfold plateCleanup
  split
  · split_ifs
    · exact nop_recPop hm
    · exact hm
  · exact hm

/-- The inner-try record carries `None` at most under `plate_number`. -/
theorem mergedOrFallback_nop (st : ExtractorState) (defaults : FieldPatterns)
    (oracles : MergeOracles) (text : String) (docStruct : Record)
    (unexpectedMerge : Option String) :
    nullOnlyAtPlate
      (mergedOrFallback st defaults oracles text docStruct unexpectedMerge) := by
  unfold mergedOrFallback
  split
  · exact nullOnlyAtPlate_of_noneFree (fallbackRecord_noneFree st defaults text)
  · split
    · exact mergeBlock_nop (by assumption)
    · exact nullOnlyAtPlate_of_noneFree (fallbackRecord_noneFree st defaults text)

/-- Every record returned by the orchestrator holds `None` at most under the
`plate_number` key. -/
theorem process_nullOnlyAtPlate {defaults : FieldPatterns}
    {db : Except String DbData} {scan : DocScan} {oracles : MergeOracles}
    {unexpectedMerge outerExc : Option String} {r : Record}
    (h : processInvoiceExtraction defaults db scan oracles unexpectedMerge
      outerExc = .record r) : nullOnlyAtPlate r := by
  unfold processInvoiceExtraction at h
  split at h
  · cases h
  · split_ifs at h
    unfold processTry at h
    rcases hscan : scan.extractTry with - | dr
    · rw [hscan] at h
      have h2 : processRaisedDecode (loadPatternsFromDb initExtractor db)
          defaults scan.rawDecode = .record r := h
      unfold processRaisedDecode at h2
      rcases hr : scan.rawDecode with - | t0
      · rw [hr] at h2
        cases h2
      · rw [hr] at h2
        have h3 : Outcome.record (plateCleanup
            (fallbackRecord (loadPatternsFromDb initExtractor db) defaults
              (normalizeProforma t0))) = .record r := h2
        injection h3 with h4
        rw [← h4]
        exact plateCleanup_nop
          (nullOnlyAtPlate_of_noneFree (fallbackRecord_noneFree _ _ _))
    · rw [hscan] at h
      have h2 : processReturned (loadPatternsFromDb initExtractor db)
          defaults oracles dr unexpectedMerge = .record r := h
      unfold processReturned at h2
      split_ifs at h2
      injection h2 with h4
      rw [← h4]
      exact plateCleanup_nop (mergedOrFallback_nop _ _ _ _ _ _)

/-- Denotation of `re.search` for a never-matching database rule, per field
type, on the concrete texts used below (each rule's pattern has no occurrence
in those texts). -/
def neverRule (nm : String) : DbRow :=
  { name := nm, field_type := nm, priority := 5, search := neverSearch }

/-- Active pattern rows covering every field type `extract_all` consults:
fourteen never-matching rules plus, for `attended_by`, a rule whose regex
`(\s)` captures the single space of the text `"a b"`
(`re.search(r'(\s)', 'a b')` matches at index 1 with group 1 = `' '`). -/
def cexRows : List DbRow :=
  [{ neverRule "plate_number" with field_type := "plate_number" },
   { neverRule "customer_name" with field_type := "customer_name" },
   { neverRule "customer_phone" with field_type := "customer_phone" },
   { neverRule "customer_email" with field_type := "customer_email" },
   { neverRule "customer_tel" with field_type := "customer_tel" },
   { neverRule "address" with field_type := "address" },
   { neverRule "service_description" with field_type := "service_description" },
   { neverRule "quantity" with field_type := "quantity" },
   { neverRule "amount" with field_type := "amount" },
   { neverRule "reference" with field_type := "reference" },
   { neverRule "code_no" with field_type := "code_no" },
   { neverRule "pi_no" with field_type := "pi_no" },
   { neverRule "invoice_date" with field_type := "invoice_date" },
   { neverRule "del_date" with field_type := "del_date" },
   { name := "ws attended", field_type := "attended_by", priority := 5,
     search := wsRule.search }]

/-- Database data loading the counterexample rule set (no templates). -/
def cexDb : Except String DbData := .ok { patternRows := cexRows, templateRows := [] }

/-- A scan whose external extraction raised and whose raw decode yields the
two-word text `"a b"`. -/
def cexScan : DocScan :=
  { filename := "inv.pdf", extractTry := .raised, rawDecode := some "a b" }

/-- A decoder result whose structured data carries `vehicle_plates = [None]`:
the gap-fill merge stores the list verbatim (it is truthy), and
extraction_utils.py line 490 then assigns its head — Python `None` — verbatim
to `plate_number`. -/
def c2NoneScan : DocScan :=
  { filename := "inv.pdf",
    extractTry := .returned
      { success := true, raw_text := "x",
        structured_data := [("vehicle_plates", .pyList [.elemNone])],
        error := none },
    rawDecode := none }

/-- The record such a run returns: the falsy `None` plate survives the final
cleanup (the pop is guarded by `if plate:`). -/
def c2NoneRecord : Record :=
  [("vehicle_plates", .pyList [.elemNone]), ("raw_text", .pyStr "x"),
   ("plate_number", .pyNone)]

/-- Claim C2, counterexample.  The claim says every present key of the
`extract_all` mapping, and of the orchestrator's final record, carries a
non-null, non-empty value.  Two refutations: (1) with a whitespace-only
capture for `attended_by` the mapping contains `attended_by ↦ ""` (the
`None` filter keeps empty strings), and the same empty value reaches the
orchestrator's final record; (2) a decoder `vehicle_plates` list headed by
`None` puts the value `None` under `plate_number` in the final record
(extraction_utils.py line 490 assigns `doc_struct.get('vehicle_plates')[0]`
verbatim, and the cleanup at lines 604-612 skips a falsy plate). -/
theorem C2_counterexample :
    recGet (extractAll (loadPatternsFromDb initExtractor cexDb) noDefaults "a b")
        "attended_by" = some (.pyStr "") ∧
      (processInvoiceExtraction noDefaults cexDb cexScan trivOracles none none =
        .record [("attended_by", .pyStr ""), ("raw_text", .pyStr "a b")]) ∧
      (processInvoiceExtraction noDefaults cexDb c2NoneScan trivOracles none
          none = .record c2NoneRecord) ∧
      recGet c2NoneRecord "plate_number" = some .pyNone := by
  refine ⟨by decide, by decide, by decide, by decide⟩

/-- Claim C2, amended.  Every key present in the mapping returned by
`extract_all` carries a non-null value (`None`-valued fields are removed
before returning), and in any record returned by
`process_invoice_extraction` the only key that may carry `None` is
`plate_number` (installed verbatim from a `None` head of the decoder's
`vehicle_plates` list at extraction_utils.py line 490 and kept by the
falsy-plate cleanup); a present key may however carry the empty string (for
instance from a whitespace-only rule capture, or an empty raw-text
excerpt). -/
theorem C2_amended_theorem :
    (∀ (st : ExtractorState) (defaults : FieldPatterns) (text : String),
      noneFree (extractAll st defaults text)) ∧
    (∀ (defaults : FieldPatterns) (db : Except String DbData) (scan : DocScan)
      (oracles : MergeOracles) (unexpectedMerge outerExc : Option String)
      (r : Record),
      processInvoiceExtraction defaults db scan oracles unexpectedMerge
        outerExc = .record r → nullOnlyAtPlate r) :=
  ⟨noneFree_extractAll,
    fun _ _ _ _ _ _ _ h => process_nullOnlyAtPlate h⟩

/-- Claim C2, witness: the amended theorem applied to the concrete `None`
plate run — the record does carry `None`, but only under `plate_number`. -/
theorem C2_witness :
    (processInvoiceExtraction noDefaults cexDb c2NoneScan trivOracles none
      none = .record c2NoneRecord) ∧ nullOnlyAtPlate c2NoneRecord :=
  ⟨by decide,
    C2_amended_theorem.2 noDefaults cexDb c2NoneScan trivOracles none none
      c2NoneRecord (by decide)⟩

/-! ## Claim C7 — plate false-positive suppression -/

theorem recGet_recPop (m : Record) (k : String) :
    recGet (recPop m k) k = none := by
  induction m with
  | nil => rfl
  | cons p rest ih =>
    unfold recPop
    rw [List.filter_cons]
    by_cases hp : p.1 = k
    · rw [if_neg (by simp [hp])]
      exact ih
    · rw [if_pos (by simpa using hp)]
      rw [recGet_cons_neg hp]
      exact ih

/-- Unfolding equation for the cleanup. -/
theorem plateCleanup_eq (m : Record) :
    plateCleanup m =
      match recGet m "plate_number" with
      | some (.pyStr q) =>
        if q ≠ "" && boxVocab q then recPop m "plate_number" else m
      | _ => m := rfl

/-- A vocabulary-laden plate does not survive the cleanup. -/
theorem plateCleanup_discards {m : Record} {p : String}
    (hget : recGet m "plate_number" = some (.pyStr p)) (hp : p ≠ "")
    (hvocab : boxVocab p = true) :
    recGet (plateCleanup m) "plate_number" = none := by
  rw [plateCleanup_eq, hget]
  show recGet (if p ≠ "" && boxVocab p then recPop m "plate_number" else m)
    "plate_number" = none
  rw [if_pos (by simp [hp, hvocab])]
  exact recGet_recPop m "plate_number"

/-- Any string plate present after the cleanup is vocabulary-free. -/
theorem plateCleanup_survivor {m : Record} {p : String}
    (h : recGet (plateCleanup m) "plate_number" = some (.pyStr p)) :
    boxVocab p = false := by
  rcases hq : recGet m "plate_number" with - | v
  · rw [plateCleanup_eq, hq] at h
    have h2 : recGet m "plate_number" = some (.pyStr p) := h
    rw [hq] at h2
    cases h2
  · rw [plateCleanup_eq, hq] at h
    rcases v with - | q | n | d | l | it | it
    case pyStr =>
      have h2 : recGet (if q ≠ "" && boxVocab q then recPop m "plate_number"
          else m) "plate_number" = some (.pyStr p) := h
      split_ifs at h2 with hcond
      · rw [recGet_recPop] at h2
        cases h2
      · have hqp : q = p := by
          have h3 := hq.symm.trans h2
          injection h3 with h4
          injection h4
        have hfalse : (decide (q ≠ "") && boxVocab q) = false := by
          revert hcond
          cases hb : (decide (q ≠ "") && boxVocab q) <;> simp
        rcases Bool.and_eq_false_iff.mp hfalse with h3 | h3
        · have hq0 : q = "" := by simpa using h3
          rw [← hqp, hq0]
          decide
        · rw [← hqp]
          exact h3
    all_goals
      · have h2 : recGet m "plate_number" = some (.pyStr p) := h
        have h3 := hq.symm.trans h2
        injection h3 with h4
        cases h4

/-- Every record the orchestrator returns has passed through the plate
cleanup. -/
theorem process_record_is_cleanup {defaults : FieldPatterns}
    {db : Except String DbData} {scan : DocScan} {oracles : MergeOracles}
    {unexpectedMerge outerExc : Option String} {r : Record}
    (h : processInvoiceExtraction defaults db scan oracles unexpectedMerge
      outerExc = .record r) : ∃ m, r = plateCleanup m := by
  unfold processInvoiceExtraction at h
  split at h
  · cases h
  · split_ifs at h
    unfold processTry at h
    rcases hscan : scan.extractTry with - | dr
    · rw [hscan] at h
      have h2 : processRaisedDecode (loadPatternsFromDb initExtractor db)
          defaults scan.rawDecode = .record r := h
      unfold processRaisedDecode at h2
      rcases hr : scan.rawDecode with - | t0
      · rw [hr] at h2
        cases h2
      · rw [hr] at h2
        have h3 : Outcome.record (plateCleanup
            (fallbackRecord (loadPatternsFromDb initExtractor db) defaults
              (normalizeProforma t0))) = .record r := h2
        injection h3 with h4
        exact ⟨_, h4.symm⟩
    · rw [hscan] at h
      have h2 : processReturned (loadPatternsFromDb initExtractor db)
          defaults oracles dr unexpectedMerge = .record r := h
      unfold processReturned at h2
      split_ifs at h2
      injection h2 with h4
      exact ⟨_, h4.symm⟩

/-- Claim C7.  A plate-number candidate that, after upper-casing, replacing
dots by spaces and stripping, contains the postal-box vocabulary is popped
from the record by the final cleanup; consequently a record returned by
`process_invoice_extraction` never carries a vocabulary-laden string
`plate_number` — such a candidate is discarded and the key is absent. -/
theorem C7_claim :
    (∀ (m : Record) (p : String),
      recGet m "plate_number" = some (.pyStr p) → p ≠ "" →
      boxVocab p = true →
      recGet (plateCleanup m) "plate_number" = none) ∧
    (∀ (defaults : FieldPatterns) (db : Except String DbData) (scan : DocScan)
      (oracles : MergeOracles) (unexpectedMerge outerExc : Option String)
      (r : Record) (p : String),
      processInvoiceExtraction defaults db scan oracles unexpectedMerge
        outerExc = .record r →
      recGet r "plate_number" = some (.pyStr p) →
      boxVocab p = false) := by
  constructor
  · intro m p hget hp hvocab
    exact plateCleanup_discards hget hp hvocab
  · intro defaults db scan oracles uM oE r p hproc hget
    obtain ⟨m, rfl⟩ := process_record_is_cleanup hproc
    exact plateCleanup_survivor hget

/-- Claim C7, witness: the candidate `"P.O. Box 455"` is discarded from a
record that carries it, and the plate `"T 123 ABC"` surviving in the
concrete orchestrator run `c6Scan` is vocabulary-free. -/
theorem C7_witness :
    (recGet [("plate_number", PyVal.pyStr "P.O. Box 455")] "plate_number" =
        some (.pyStr "P.O. Box 455") ∧
      boxVocab "P.O. Box 455" = true ∧
      recGet (plateCleanup [("plate_number", PyVal.pyStr "P.O. Box 455")])
        "plate_number" = none) ∧
    (recGet c6Result "plate_number" = some (.pyStr "T 123 ABC") ∧
      boxVocab "T 123 ABC" = false) :=
  ⟨⟨by decide, by decide,
      C7_claim.1 [("plate_number", PyVal.pyStr "P.O. Box 455")] "P.O. Box 455"
        (by decide) (by decide) (by decide)⟩,
    ⟨by decide,
      C7_claim.2 noDefaults (.error "no db") c6Scan trivOracles none none
        c6Result "T 123 ABC" (by decide) (by decide)⟩⟩

/-! ## Claim C10 — no default service templates -/

theorem matchServiceTemplate_nil (d : String) :
    matchServiceTemplate [] d = none := by
  unfold matchServiceTemplate
  split_ifs <;> rfl

theorem recGet_dropNone_none (l : List (String × Option PyVal)) (k : String)
    (h : ∀ p ∈ l, p.1 ≠ k) : recGet (dropNoneEntries l) k = none := by
  induction l with
  | nil => rfl
  | cons p rest ih =>
    unfold dropNoneEntries
    rw [List.filterMap_cons]
    cases hp : p.2 with
    | none =>
      exact ih (fun q hq => h q (List.mem_cons_of_mem p hq))
    | some w =>
      show recGet ((p.1, w) :: dropNoneEntries rest) k = none
      rw [recGet_cons_neg (h p (List.mem_cons_self p rest))]
      exact ih (fun q hq => h q (List.mem_cons_of_mem p hq))

/-- With an empty template map, `extract_all` never emits the two
template-match keys. -/
theorem extractAll_no_template_keys (st : ExtractorState)
    (defaults : FieldPatterns) (text : String)
    (hst : st.serviceTemplates = []) :
    recGet (extractAll st defaults text) "matched_service" = none ∧
      recGet (extractAll st defaults text) "estimated_minutes" = none := by
  have hkeys : ∀ k, k = "matched_service" ∨ k = "estimated_minutes" →
      ∀ p ∈ extractAllEntries st defaults text, p.1 ≠ k := by
    intro k hk p hp
    unfold extractAllEntries at hp
    rcases List.mem_append.mp hp with hbase | htmpl
    · simp only [List.mem_cons, List.not_mem_nil, or_false] at hbase
      rcases hk with rfl | rfl <;>
        (rcases hbase with rfl | rfl | rfl | rfl | rfl | rfl | rfl | rfl | rfl |
          rfl | rfl | rfl | rfl | rfl | rfl | rfl | rfl <;> simp)
    · have htnone : (match extractField st defaults "service_description" text with
        | some d =>
          if d ≠ "" then matchServiceTemplate st.serviceTemplates d else none
        | none => none : Option (String × Int)) = none := by
        rw [hst]
        cases extractField st defaults "service_description" text with
        | none => rfl
        | some d =>
          show (if d ≠ "" then matchServiceTemplate [] d else none) = none
          split_ifs
          · exact matchServiceTemplate_nil d
          · rfl
      rw [htnone] at htmpl
      cases htmpl
  exact ⟨recGet_dropNone_none _ _ (hkeys _ (Or.inl rfl)),
    recGet_dropNone_none _ _ (hkeys _ (Or.inr rfl))⟩

/-- Claim C10.  Service templates have no built-in default set: after a
failed database load the template map is empty and the load is marked done —
a second load with any database outcome is a no-op — and the same holds for
a load that returns no template rows; with the empty template map
`match_service_template` returns `None` for every description, so
`extract_all` never includes the `matched_service` or `estimated_minutes`
keys.  Field-extraction rules, by contrast, do fall back to the built-in
default table when the loaded pattern map is empty. -/
theorem C10_claim (e : String) (db2 : Except String DbData) (rows : List DbRow)
    (defaults : FieldPatterns) (text d ft : String) :
    (loadPatternsFromDb initExtractor (.error e)).serviceTemplates = [] ∧
    loadPatternsFromDb (loadPatternsFromDb initExtractor (.error e)) db2 =
      loadPatternsFromDb initExtractor (.error e) ∧
    (loadPatternsFromDb initExtractor
      (.ok { patternRows := rows, templateRows := [] })).serviceTemplates = [] ∧
    matchServiceTemplate
      (loadPatternsFromDb initExtractor (.error e)).serviceTemplates d = none ∧
    recGet (extractAll (loadPatternsFromDb initExtractor (.error e)) defaults
      text) "matched_service" = none ∧
    recGet (extractAll (loadPatternsFromDb initExtractor (.error e)) defaults
      text) "estimated_minutes" = none ∧
    extractField (loadPatternsFromDb initExtractor (.error e)) defaults ft text =
      extractFieldRules (defaults ft) text := by
  refine ⟨rfl, rfl, rfl, matchServiceTemplate_nil d, ?_, ?_, rfl⟩
  · exact (extractAll_no_template_keys _ defaults text rfl).1
  · exact (extractAll_no_template_keys _ defaults text rfl).2

/-! ## Claim C1 — the orchestrator never fails unhandled -/

/-- Claim C1.  `process_invoice_extraction` always returns either a record of
extracted fields or an explicit error mapping (first conjunct, by exhaustive
case analysis of the embedded orchestrator); and whenever the external
extraction succeeded but the merge of the two extraction passes raises — a
runtime exception (second conjunct) or one of the embedded failure paths of
the merge block (third conjunct) — the error is caught and the orchestrator
falls back to the minimal single-pass record: `extract_all` on the
normalized text plus the 5000-character raw-text excerpt, run through the
final plate cleanup. -/
theorem C1_claim :
    (∀ (defaults : FieldPatterns) (db : Except String DbData) (scan : DocScan)
      (oracles : MergeOracles) (uM oE : Option String),
      (∃ r, processInvoiceExtraction defaults db scan oracles uM oE = .record r) ∨
      (∃ msg, processInvoiceExtraction defaults db scan oracles uM oE =
        .error msg)) ∧
    (∀ (defaults : FieldPatterns) (db : Except String DbData) (fname : String)
      (dr : DocResult) (rdec : Option String) (oracles : MergeOracles)
      (e : String),
      isImageName fname = false → dr.success = true →
      processInvoiceExtraction defaults db
          { filename := fname, extractTry := .returned dr, rawDecode := rdec }
          oracles (some e) none =
        .record (plateCleanup (fallbackRecord
          (loadPatternsFromDb initExtractor db) defaults
          (normalizeProforma dr.raw_text)))) ∧
    (∀ (defaults : FieldPatterns) (db : Except String DbData) (fname : String)
      (dr : DocResult) (rdec : Option String) (oracles : MergeOracles)
      (msg : String),
      isImageName fname = false → dr.success = true →
      mergeBlock (loadPatternsFromDb initExtractor db) defaults oracles
        (normalizeProforma dr.raw_text) dr.structured_data = .error msg →
      processInvoiceExtraction defaults db
          { filename := fname, extractTry := .returned dr, rawDecode := rdec }
          oracles none none =
        .record (plateCleanup (fallbackRecord
          (loadPatternsFromDb initExtractor db) defaults
          (normalizeProforma dr.raw_text)))) := by
  refine ⟨?_, ?_, ?_⟩
  · intro defaults db scan oracles uM oE
    cases hout : processInvoiceExtraction defaults db scan oracles uM oE with
    | record r => exact Or.inl ⟨r, rfl⟩
    | error msg => exact Or.inr ⟨msg, rfl⟩
  · intro defaults db fname dr rdec oracles e himg hsucc
    show (if isImageName fname = true then
        Outcome.error
          "Image extraction disabled. Please upload a PDF or text-based document."
      else processTry (loadPatternsFromDb initExtractor db) defaults oracles
        { filename := fname, extractTry := .returned dr, rawDecode := rdec }
        (some e)) = _
    rw [if_neg (by simp [himg])]
    show processReturned (loadPatternsFromDb initExtractor db) defaults oracles
      dr (some e) = _
    unfold processReturned
    rw [if_pos hsucc]
    rfl
  · intro defaults db fname dr rdec oracles msg himg hsucc hmb
    show (if isImageName fname = true then
        Outcome.error
          "Image extraction disabled. Please upload a PDF or text-based document."
      else processTry (loadPatternsFromDb initExtractor db) defaults oracles
        { filename := fname, extractTry := .returned dr, rawDecode := rdec }
        none) = _
    rw [if_neg (by simp [himg])]
    show processReturned (loadPatternsFromDb initExtractor db) defaults oracles
      dr none = _
    unfold processReturned
    rw [if_pos hsucc]
    show Outcome.record (plateCleanup
      (match mergeBlock (loadPatternsFromDb initExtractor db) defaults oracles
          (normalizeProforma dr.raw_text) dr.structured_data with
        | .ok m => m
        | .error _ => fallbackRecord (loadPatternsFromDb initExtractor db)
            defaults (normalizeProforma dr.raw_text))) = _
    rw [hmb]

/-- A decoder result used by the C1 witness: successful decode of the text
`"hello"` with no structured data. -/
def c1Doc : DocResult :=
  { success := true, raw_text := "hello", structured_data := [], error := none }

/-- Claim C1, witness: on a successful decode whose merge raises a runtime
error, the orchestrator returns the minimal fallback record — here
`extract_all` finds nothing, so the record is just the raw-text excerpt. -/
theorem C1_witness :
    (isImageName "doc.pdf" = false ∧ c1Doc.success = true) ∧
      processInvoiceExtraction noDefaults (.error "db down")
          { filename := "doc.pdf", extractTry := .returned c1Doc,
            rawDecode := none }
          trivOracles (some "boom") none =
        .record (plateCleanup (fallbackRecord
          (loadPatternsFromDb initExtractor (.error "db down")) noDefaults
          (normalizeProforma c1Doc.raw_text))) ∧
      plateCleanup (fallbackRecord
          (loadPatternsFromDb initExtractor (.error "db down")) noDefaults
          (normalizeProforma c1Doc.raw_text)) =
        [("raw_text", PyVal.pyStr "hello")] :=
  ⟨⟨by decide, by decide⟩,
    C1_claim.2.1 noDefaults (.error "db down") "doc.pdf" c1Doc none trivOracles
      "boom" (by decide) (by decide),
    by decide⟩
